import Mathlib

/-!
Shallow embedding of the contrast-maximization core of the chromo-map
library (`chromo_map/core/color.py` and `chromo_map/accessibility/contrast.py`),
together with the colour-space conversions from Python's `colorsys` module
that the adjustment primitives call.

Modelling conventions:
* Python floats are modelled as real numbers (`ℝ`); float literals such as
  `0.03928` become the corresponding rational constants.
* Python functions that can raise (`ValueError` from the `Color` constructor)
  are modelled as `Except String` values carrying the exception message.
* `while` loops whose termination in Python rests on floating-point
  discreteness (binary search, golden-section search) take an explicit
  fuel argument; all theorems about them hold for every fuel value.
-/

noncomputable section

open scoped Classical

/-- Python `int()` applied to a float: truncation toward zero. -/
def pytrunc (x : ℝ) : ℤ :=
  if 0 ≤ x then ⌊x⌋ else ⌈x⌉

/-- Python `x % 1.0` for a float `x`: the fractional part, in `[0, 1)`. -/
def pymod1 (x : ℝ) : ℝ :=
  x - ⌊x⌋

/-- `colorsys.rgb_to_hsv`: returns `(h, s, v)` with `h ∈ [0,1)`. -/
def rgb_to_hsv (r g b : ℝ) : ℝ × ℝ × ℝ :=
  let maxc := max r (max g b)
  let minc := min r (min g b)
  let v := maxc
  if minc = maxc then (0, 0, v)
  else
    let s := (maxc - minc) / maxc
    let rc := (maxc - r) / (maxc - minc)
    let gc := (maxc - g) / (maxc - minc)
    let bc := (maxc - b) / (maxc - minc)
    let h := if r = maxc then bc - gc
             else if g = maxc then 2 + rc - bc
             else 4 + gc - rc
    (pymod1 (h / 6), s, v)

/-- `colorsys.hsv_to_rgb`. -/
def hsv_to_rgb (h s v : ℝ) : ℝ × ℝ × ℝ :=
  if s = 0 then (v, v, v)
  else
    let i0 := pytrunc (h * 6)
    let f := h * 6 - i0
    let p := v * (1 - s)
    let q := v * (1 - s * f)
    let t := v * (1 - s * (1 - f))
    let i := i0 % 6
    if i = 0 then (v, t, p)
    else if i = 1 then (q, v, p)
    else if i = 2 then (p, v, t)
    else if i = 3 then (p, q, v)
    else if i = 4 then (t, p, v)
    else (v, p, q)

/-- `colorsys.rgb_to_hls`: returns `(h, l, s)` with `h ∈ [0,1)`. -/
def rgb_to_hls (r g b : ℝ) : ℝ × ℝ × ℝ :=
  let maxc := max r (max g b)
  let minc := min r (min g b)
  let sumc := maxc + minc
  let rangec := maxc - minc
  let l := sumc / 2
  if minc = maxc then (0, l, 0)
  else
    let s := if l ≤ 1/2 then rangec / sumc else rangec / (2 - sumc)
    let rc := (maxc - r) / rangec
    let gc := (maxc - g) / rangec
    let bc := (maxc - b) / rangec
    let h := if r = maxc then bc - gc
             else if g = maxc then 2 + rc - bc
             else 4 + gc - rc
    (pymod1 (h / 6), l, s)

/-- `colorsys._v`, the interpolation helper of `hls_to_rgb`
(`ONE_THIRD`, `ONE_SIXTH`, `TWO_THIRD` are the exact rationals). -/
def hls_v (m1 m2 hue : ℝ) : ℝ :=
  let hue' := pymod1 hue
  if hue' < 1/6 then m1 + (m2 - m1) * hue' * 6
  else if hue' < 1/2 then m2
  else if hue' < 2/3 then m1 + (m2 - m1) * (2/3 - hue') * 6
  else m1

/-- `colorsys.hls_to_rgb`. -/
def hls_to_rgb (h l s : ℝ) : ℝ × ℝ × ℝ :=
  if s = 0 then (l, l, l)
  else
    let m2 := if l ≤ 1/2 then l * (1 + s) else l + s - l * s
    let m1 := 2 * l - m2
    (hls_v m1 m2 (h + 1/3), hls_v m1 m2 h, hls_v m1 m2 (h - 1/3))

/-- The `Color` value type: four float channels `r`, `g`, `b`, `a`. -/
structure Color where
  r : ℝ
  g : ℝ
  b : ℝ
  a : ℝ

/-- The documented invariant: all four channels within `[0, 1]`. -/
def Color.Valid (c : Color) : Prop :=
  (0 ≤ c.r ∧ c.r ≤ 1) ∧ (0 ≤ c.g ∧ c.g ≤ 1) ∧
    (0 ≤ c.b ∧ c.b ≤ 1) ∧ (0 ≤ c.a ∧ c.a ≤ 1)

/-- The validating branch of `Color.__init__` for an already-extracted
`(red, grn, blu, alp)` quadruple: `if all(0 <= x <= 1 for x in ...)` stores
the channels, otherwise raises `ValueError`. -/
def mkColorTup (r g b a : ℝ) : Except String Color :=
  if (0 ≤ r ∧ r ≤ 1) ∧ (0 ≤ g ∧ g ≤ 1) ∧ (0 ≤ b ∧ b ≤ 1) ∧ (0 ≤ a ∧ a ≤ 1)
  then .ok ⟨r, g, b, a⟩
  else .error "Color values must be between 0 and 1."

/-- The inputs accepted by `Color.__init__`.  String inputs are represented
by the result of the (external, matplotlib-backed) parsing helper
`clr_to_tup`: `some` quadruple on a successful parse, `none` otherwise. -/
inductive ColorInput where
  | fromColor : Color → ColorInput
  | fromSeq : List ℝ → ColorInput
  | fromStr : Option (ℝ × ℝ × ℝ × ℝ) → ColorInput

/-- `Color.__init__(clr, alpha)`.  The `isinstance(clr, Color)` branch copies
the stored channels and overwrites `a` with `alpha` when given, with no
validation; the sequence and string branches extract channels and then
validate via the `[0,1]` range check. -/
def colorInit (clr : ColorInput) (alpha : Option ℝ) : Except String Color :=
  match clr with
  | .fromColor c =>
      match alpha with
      | some al => .ok { c with a := al }
      | none => .ok c
  | .fromSeq vals =>
      if vals.length < 3 then
        .error "Color sequence must have at least 3 values (RGB)"
      else
        let red := vals.getD 0 0
        let grn := vals.getD 1 0
        let blu := vals.getD 2 0
        let alp := match alpha with
          | some al => al
          | none => if 3 < vals.length then vals.getD 3 1 else 1
        mkColorTup red grn blu alp
  | .fromStr tup =>
      match tup with
      | none => .error "Invalid color input."
      | some (red, grn, blu, alp0) =>
          let alp := match alpha with
            | some al => al
            | none => alp0
          mkColorTup red grn blu alp

/-- `Color.hsv`: `(h*360, s, v)`. -/
def Color.hsv (c : Color) : ℝ × ℝ × ℝ :=
  let x := rgb_to_hsv c.r c.g c.b
  (x.1 * 360, x.2.1, x.2.2)

/-- `Color.hsl`: `rgb_to_hls` returns `(h, l, s)`; the property reorders it
to `(h*360, s, l)`. -/
def Color.hsl (c : Color) : ℝ × ℝ × ℝ :=
  let x := rgb_to_hls c.r c.g c.b
  (x.1 * 360, x.2.2, x.2.1)

/-- The sRGB linearization step of `Color.luminance`. -/
def linearize (x : ℝ) : ℝ :=
  if x ≤ 0.03928 then x / 12.92 else ((x + 0.055) / 1.055) ^ (2.4 : ℝ)

/-- `Color.luminance`: WCAG 2.1 relative luminance. -/
def Color.luminance (c : Color) : ℝ :=
  0.2126 * linearize c.r + 0.7152 * linearize c.g + 0.0722 * linearize c.b

/-- `Color.contrast_ratio`. -/
def Color.contrast_ratio (c1 c2 : Color) : ℝ :=
  let l1 := c1.luminance
  let l2 := c2.luminance
  if l1 < l2 then (l2 + 0.05) / (l1 + 0.05) else (l1 + 0.05) / (l2 + 0.05)

/-- `Color.is_accessible` (and the module-level `is_accessible`, which
delegates to it once its arguments are `Color`s). -/
def Color.is_accessible (c1 c2 : Color) (level : String) : Prop :=
  if level = "AAA" then c1.contrast_ratio c2 ≥ 7.0 else c1.contrast_ratio c2 ≥ 4.5

/-- `Color.adjust_saturation`. -/
def Color.adjust_saturation (c : Color) (factor : ℝ) : Except String Color :=
  let x := c.hsv
  let new_s := min 1 (max 0 (x.2.1 * factor))
  let rgb := hsv_to_rgb (x.1 / 360) new_s x.2.2
  mkColorTup rgb.1 rgb.2.1 rgb.2.2 c.a

/-- `Color.adjust_brightness`. -/
def Color.adjust_brightness (c : Color) (factor : ℝ) : Except String Color :=
  let x := c.hsv
  let new_v := min 1 (max 0 (x.2.2 * factor))
  let rgb := hsv_to_rgb (x.1 / 360) x.2.1 new_v
  mkColorTup rgb.1 rgb.2.1 rgb.2.2 c.a

/-- `Color.adjust_lightness`. -/
def Color.adjust_lightness (c : Color) (factor : ℝ) : Except String Color :=
  let x := c.hsl
  let new_l := min 1 (max 0 (x.2.2 * factor))
  let rgb := hls_to_rgb (x.1 / 360) new_l x.2.1
  mkColorTup rgb.1 rgb.2.1 rgb.2.2 c.a

/-- Pure black. -/
def black0 : Color := ⟨0, 0, 0, 1⟩

/-- Pure white. -/
def white0 : Color := ⟨1, 1, 1, 1⟩

/-- `required_ratio = 7.0 if level == "AAA" else 4.5`, as computed by each
search strategy. -/
def required_ratio (level : String) : ℝ :=
  if level = "AAA" then 7.0 else 4.5

/-- The adjustment primitive selected by the `adjust_lightness` flag. -/
def adjustPrim (lightness : Bool) (c : Color) (factor : ℝ) : Except String Color :=
  if lightness then c.adjust_lightness factor else c.adjust_brightness factor

/-- The `while` loop of `find_accessible_color`: reapply the fixed factor to
the current colour while the threshold is unmet and attempts remain.  `n` is
the number of attempts left (initially 50).  A `ValueError` from the
adjustment primitive is not caught and propagates. -/
def falLoop (target : Color) (required factor max_factor : ℝ) (lightness : Bool) :
    ℕ → Color → Except String Color
  | 0, cur => .ok cur
  | n + 1, cur =>
      if cur.contrast_ratio target < required then
        match adjustPrim lightness cur factor with
        | .error e => .error e
        | .ok next =>
            if (factor > 1 ∧ factor ≥ max_factor) ∨ (factor < 1 ∧ factor ≤ max_factor)
            then .ok next
            else falLoop target required factor max_factor lightness n next
      else .ok cur

/-- `find_accessible_color`. -/
def find_accessible_color (base target : Color) (level : String)
    (adjust_lightness : Bool) : Except String Color :=
  let required := required_ratio level
  if base.contrast_ratio target ≥ required then .ok base
  else
    let factor : ℝ := if base.luminance > target.luminance then 1.1 else 0.9
    let max_factor : ℝ := if base.luminance > target.luminance then 2.0 else 0.1
    falLoop target required factor max_factor adjust_lightness 50 base

/-- One direction of `find_maximal_contrast_iterative`: apply the factor to a
direction-local current colour, keep going only while contrast strictly
improves on the best so far; an adjustment error ends the direction.  The
state is `(best_color, best_contrast)`. -/
def iterDirLoop (target : Color) (lightness : Bool) (factor : ℝ) :
    ℕ → Color → Color × ℝ → Color × ℝ
  | 0, _, best => best
  | n + 1, temp, best =>
      match adjustPrim lightness temp factor with
      | .error _ => best
      | .ok next =>
          let next_contrast := next.contrast_ratio target
          if next_contrast > best.2 then
            iterDirLoop target lightness factor n next (next, next_contrast)
          else best

/-- `find_maximal_contrast_iterative` (the `level` argument only feeds the
unused `required_ratio`). -/
def find_maximal_contrast_iterative (base target : Color) (_level : String)
    (adjust_lightness : Bool) (step_size : ℝ) (max_attempts : ℕ) : Color :=
  let best0 := (base, base.contrast_ratio target)
  let best1 := iterDirLoop target adjust_lightness (1 + step_size) max_attempts base best0
  let best2 := iterDirLoop target adjust_lightness (1 - step_size) max_attempts base best1
  best2.1

/-- One direction of `find_maximal_contrast_binary_search`.  `lighter` selects
the bisection rule; `n` is fuel for the `while (high - low) > precision`
loop (Python's termination rests on float discreteness).  An adjustment
error ends the direction with the best seen so far.  The source's local
variables `mid`, `test_contrast` and the updated best are written inline. -/
def binDirLoop (base target : Color) (lightness : Bool) (required precision : ℝ)
    (lighter : Bool) : ℕ → ℝ → ℝ → Color × ℝ → Color × ℝ
  | 0, _, _, best => best
  | n + 1, low, high, best =>
      if high - low > precision then
        match adjustPrim lightness base ((low + high) / 2) with
        | .error _ => best
        | .ok test =>
            if lighter then
              if test.contrast_ratio target ≥ required
              then binDirLoop base target lightness required precision lighter n
                ((low + high) / 2) high
                (if test.contrast_ratio target > best.2
                 then (test, test.contrast_ratio target) else best)
              else binDirLoop base target lightness required precision lighter n
                low ((low + high) / 2)
                (if test.contrast_ratio target > best.2
                 then (test, test.contrast_ratio target) else best)
            else
              if test.contrast_ratio target ≥ required
              then binDirLoop base target lightness required precision lighter n
                low ((low + high) / 2)
                (if test.contrast_ratio target > best.2
                 then (test, test.contrast_ratio target) else best)
              else binDirLoop base target lightness required precision lighter n
                ((low + high) / 2) high
                (if test.contrast_ratio target > best.2
                 then (test, test.contrast_ratio target) else best)
      else best

/-- `find_maximal_contrast_binary_search`, with explicit fuel for the two
bisection loops. -/
def find_maximal_contrast_binary_search (base target : Color) (level : String)
    (adjust_lightness : Bool) (precision : ℝ) (fuel : ℕ) : Color :=
  let required := required_ratio level
  let best0 := (base, base.contrast_ratio target)
  let best1 := binDirLoop base target adjust_lightness required precision true
    fuel 1.0 3.0 best0
  let best2 := binDirLoop base target adjust_lightness required precision false
    fuel 0.1 1.0 best1
  best2.1

/-- The `objective_function` closure of `find_maximal_contrast_optimization`:
the larger of the two candidate contrasts, with any adjustment error mapped
to `0.0`. -/
def objective_function (base target : Color) (factor : ℝ) : ℝ :=
  match base.adjust_lightness factor, base.adjust_brightness factor with
  | .ok lc, .ok bc => max (lc.contrast_ratio target) (bc.contrast_ratio target)
  | _, _ => 0.0

/-- The golden ratio `phi = (1 + 5**0.5) / 2`. -/
def goldenPhi : ℝ := (1 + Real.sqrt 5) / 2

/-- `resphi = 2 - phi`. -/
def resphi : ℝ := 2 - goldenPhi

/-- The golden-section `while abs(b - a) > tol` loop.  State: interval
`[a, b]`, probes `x1 ≤ x2` with objective values `f1`, `f2`, and the tracked
best `(best_factor, best_contrast)`; one iteration narrows the bracket on the
side of the smaller value, recomputes the fresh probe, and updates the
tracked best from `max f1 f2` (the source's locals `current_best` /
`current_contrast` are written inline).  Returns the final `best_factor`. -/
def goldenLoop (obj : ℝ → ℝ) (tol : ℝ) :
    ℕ → ℝ → ℝ → ℝ → ℝ → ℝ → ℝ → ℝ → ℝ → ℝ
  | 0, _, _, _, _, _, _, bf, _ => bf
  | n + 1, a, b, x1, x2, f1, f2, bf, bc =>
      if |b - a| > tol then
        if f1 > f2 then
          goldenLoop obj tol n a x2 (a + resphi * (x2 - a)) x1
            (obj (a + resphi * (x2 - a))) f1
            (if max (obj (a + resphi * (x2 - a))) f1 > bc
             then (if obj (a + resphi * (x2 - a)) > f1
                   then a + resphi * (x2 - a) else x1)
             else bf)
            (if max (obj (a + resphi * (x2 - a))) f1 > bc
             then max (obj (a + resphi * (x2 - a))) f1 else bc)
        else
          goldenLoop obj tol n x1 b x2 (x1 + (1 - resphi) * (b - x1)) f2
            (obj (x1 + (1 - resphi) * (b - x1)))
            (if max f2 (obj (x1 + (1 - resphi) * (b - x1))) > bc
             then (if f2 > obj (x1 + (1 - resphi) * (b - x1))
                   then x2 else x1 + (1 - resphi) * (b - x1))
             else bf)
            (if max f2 (obj (x1 + (1 - resphi) * (b - x1))) > bc
             then max f2 (obj (x1 + (1 - resphi) * (b - x1))) else bc)
      else bf

/-- The `best_factor` produced by the golden-section branch of
`find_maximal_contrast_optimization` (bounds `[0.1, 3.0]`, `tol = 1e-5`). -/
def goldenBestFactor (base target : Color) (fuel : ℕ) : ℝ :=
  let a : ℝ := 0.1
  let b : ℝ := 3.0
  let x1 := a + resphi * (b - a)
  let x2 := a + (1 - resphi) * (b - a)
  let f1 := objective_function base target x1
  let f2 := objective_function base target x2
  let bf0 := if f1 > f2 then x1 else x2
  let bc0 := max f1 f2
  goldenLoop (objective_function base target) 1e-5 fuel a b x1 x2 f1 f2 bf0 bc0

/-- The gradient-descent loop of `find_maximal_contrast_optimization`
(learning-rate decay on non-improving steps, early stop below 1e-6).
State: current factor, learning rate, and tracked best. -/
def gradLoop (obj : ℝ → ℝ) : ℕ → ℝ → ℝ → ℝ → ℝ → ℝ
  | 0, _, _, bf, _ => bf
  | n + 1, factor, lr, bf, bc =>
      let eps : ℝ := 1e-6
      let gradient := (obj (factor + eps) - obj (factor - eps)) / (2 * eps)
      let new_factor := factor + lr * gradient
      let new_contrast := obj new_factor
      let s := if new_contrast > bc then (new_factor, new_contrast, new_factor, lr)
               else (bf, bc, factor, lr * 0.9)
      if |new_contrast - s.2.1| < 1e-6 then s.1
      else gradLoop obj n s.2.2.1 s.2.2.2 s.1 s.2.1

/-- The `best_factor` produced by the gradient-descent branch
(start 1.0, learning rate 0.1, 100 iterations). -/
def gradBestFactor (base target : Color) : ℝ :=
  gradLoop (objective_function base target) 100 1.0 0.1 1.0
    (objective_function base target 1.0)

/-- The final step shared by both optimization branches: re-evaluate the
winning factor under both adjustments and return the candidate with the
strictly greater contrast (ties go to the brightness candidate).  The
re-evaluation is outside any `try`, so an adjustment error propagates. -/
def finalSelect (base target : Color) (best_factor : ℝ) : Except String Color :=
  match base.adjust_lightness best_factor, base.adjust_brightness best_factor with
  | .ok lightness_color, .ok brightness_color =>
      .ok (if lightness_color.contrast_ratio target > brightness_color.contrast_ratio target
           then lightness_color else brightness_color)
  | .error e, _ => .error e
  | .ok _, .error e => .error e

/-- The winning factor of `find_maximal_contrast_optimization` for a
recognized method. -/
def optBestFactor (base target : Color) (method : String) (fuel : ℕ) : ℝ :=
  if method = "golden_section" then goldenBestFactor base target fuel
  else gradBestFactor base target

/-- `find_maximal_contrast_optimization`: golden-section or gradient-descent
search for the best factor, final re-evaluation under both adjustment modes,
and a hard `ValueError` for an unrecognized method. -/
def find_maximal_contrast_optimization (base target : Color) (_level : String)
    (method : String) (fuel : ℕ) : Except String Color :=
  if method = "golden_section" then
    finalSelect base target (goldenBestFactor base target fuel)
  else if method = "gradient_descent" then
    finalSelect base target (gradBestFactor base target)
  else
    .error ("Unknown optimization method: " ++ method)

theorem linearize_zero : linearize 0 = 0 := by
  rw [linearize, if_pos (by norm_num)]
  norm_num

theorem linearize_one : linearize 1 = 1 := by
  rw [linearize, if_neg (by norm_num)]
  norm_num

theorem luminance_black : black0.luminance = 0 := by
  rw [Color.luminance]
  show 0.2126 * linearize 0 + 0.7152 * linearize 0 + 0.0722 * linearize 0 = 0
  rw [linearize_zero]
  ring

theorem luminance_white : white0.luminance = 1 := by
  rw [Color.luminance]
  show 0.2126 * linearize 1 + 0.7152 * linearize 1 + 0.0722 * linearize 1 = 1
  rw [linearize_one]
  norm_num

theorem contrast_black_white : black0.contrast_ratio white0 = 21 := by
  rw [Color.contrast_ratio]
  rw [luminance_black, luminance_white]
  rw [if_pos (by norm_num)]
  norm_num

theorem required_ratio_AA : required_ratio "AA" = 4.5 := by
  rw [required_ratio, if_neg (by decide)]

/-- C7: For every pair of colors `a`, `b`,
`contrast_ratio(a, b) == contrast_ratio(b, a)`. -/
theorem contrast_ratio_symm (a b : Color) :
    a.contrast_ratio b = b.contrast_ratio a := by
  rw [Color.contrast_ratio, Color.contrast_ratio]
  rcases lt_trichotomy a.luminance b.luminance with h | h | h
  · rw [if_pos h, if_neg (not_lt.mpr (le_of_lt h))]
  · rw [h]
  · rw [if_neg (not_lt.mpr (le_of_lt h)), if_pos h]

/-- C5: `is_accessible(c1, c2, level)` holds exactly when the contrast ratio
is at least 7.0 for level `"AAA"`, and exactly when it is at least 4.5 for
`"AA"` and for every other level value (unrecognized levels fall back to the
`"AA"` threshold, they are not an error). -/
theorem is_accessible_thresholds (c1 c2 : Color) (level : String) :
    (c1.is_accessible c2 "AAA" ↔ c1.contrast_ratio c2 ≥ 7.0) ∧
      (level ≠ "AAA" → (c1.is_accessible c2 level ↔ c1.contrast_ratio c2 ≥ 4.5)) := by
  constructor
  · rw [Color.is_accessible, if_pos rfl]
  · intro h
    rw [Color.is_accessible, if_neg h]

/-- Witness for C5 at a concrete unrecognized level. -/
theorem is_accessible_thresholds_witness :
    ("bogus" : String) ≠ "AAA" ∧
      (black0.is_accessible white0 "bogus" ↔ black0.contrast_ratio white0 ≥ 4.5) :=
  ⟨by decide, (is_accessible_thresholds black0 white0 "bogus").2 (by decide)⟩

/-- C8: if the base already meets the required ratio for the level against
the target, `find_accessible_color` returns the base unchanged. -/
theorem find_accessible_color_noop (base target : Color) (level : String)
    (adjust_lightness : Bool)
    (h : base.contrast_ratio target ≥ required_ratio level) :
    find_accessible_color base target level adjust_lightness = .ok base := by
  rw [find_accessible_color, if_pos h]

/-- Witness for C8: black on white already meets the AA threshold. -/
theorem find_accessible_color_noop_witness :
    black0.contrast_ratio white0 ≥ required_ratio "AA" ∧
      find_accessible_color black0 white0 "AA" true = .ok black0 :=
  ⟨by rw [contrast_black_white, required_ratio_AA]; norm_num,
    find_accessible_color_noop black0 white0 "AA" true
      (by rw [contrast_black_white, required_ratio_AA]; norm_num)⟩

theorem linearize_nonneg {x : ℝ} (h0 : 0 ≤ x) : 0 ≤ linearize x := by
  rw [linearize]
  by_cases hx : x ≤ 0.03928
  · rw [if_pos hx]
    positivity
  · rw [if_neg hx]
    push_neg at hx
    exact Real.rpow_nonneg (div_nonneg (by linarith) (by norm_num)) _

theorem linearize_le_one {x : ℝ} (h1 : x ≤ 1) : linearize x ≤ 1 := by
  rw [linearize]
  by_cases hx : x ≤ 0.03928
  · rw [if_pos hx]
    rw [div_le_one (by norm_num)]
    linarith
  · rw [if_neg hx]
    push_neg at hx
    refine Real.rpow_le_one (div_nonneg (by linarith) (by norm_num)) ?_ (by norm_num)
    rw [div_le_one (by norm_num)]
    linarith

theorem black0_valid : black0.Valid := by
  unfold black0 Color.Valid
  norm_num

theorem white0_valid : white0.Valid := by
  unfold white0 Color.Valid
  norm_num

theorem luminance_nonneg {c : Color} (h : c.Valid) : 0 ≤ c.luminance := by
  obtain ⟨⟨hr0, _⟩, ⟨hg0, _⟩, ⟨hb0, _⟩, _⟩ := h
  rw [Color.luminance]
  have := linearize_nonneg hr0
  have := linearize_nonneg hg0
  have := linearize_nonneg hb0
  nlinarith

theorem luminance_le_one {c : Color} (h : c.Valid) : c.luminance ≤ 1 := by
  obtain ⟨⟨hr0, hr1⟩, ⟨hg0, hg1⟩, ⟨hb0, hb1⟩, _⟩ := h
  rw [Color.luminance]
  have := linearize_le_one hr1
  have := linearize_le_one hg1
  have := linearize_le_one hb1
  have := linearize_nonneg hr0
  have := linearize_nonneg hg0
  have := linearize_nonneg hb0
  nlinarith

/-- C4: for valid colors the contrast ratio lies in `[1, 21]`, it equals 1
exactly when the two luminances are equal, and for pure black versus pure
white it equals exactly 21. -/
theorem contrast_ratio_bounds (a b : Color) (ha : a.Valid) (hb : b.Valid) :
    (1 ≤ a.contrast_ratio b ∧ a.contrast_ratio b ≤ 21) ∧
      (a.contrast_ratio b = 1 ↔ a.luminance = b.luminance) ∧
      black0.contrast_ratio white0 = 21 := by
  have ha0 := luminance_nonneg ha
  have ha1 := luminance_le_one ha
  have hb0 := luminance_nonneg hb
  have hb1 := luminance_le_one hb
  rw [Color.contrast_ratio]
  refine ⟨?_, ?_, contrast_black_white⟩
  · split
    · rename_i hlt
      constructor
      · rw [le_div_iff (by linarith)]
        linarith
      · rw [div_le_iff (by linarith)]
        linarith
    · rename_i hge
      rw [not_lt] at hge
      constructor
      · rw [le_div_iff (by linarith)]
        linarith
      · rw [div_le_iff (by linarith)]
        linarith
  · split
    · rename_i hlt
      rw [div_eq_one_iff_eq (by linarith)]
      constructor
      · intro h
        linarith
      · intro h
        linarith
    · rename_i hge
      rw [not_lt] at hge
      rw [div_eq_one_iff_eq (by linarith)]
      constructor
      · intro h
        linarith
      · intro h
        linarith

/-- Witness for C4 at black and white. -/
theorem contrast_ratio_bounds_witness :
    black0.Valid ∧ white0.Valid ∧
      (1 ≤ black0.contrast_ratio white0 ∧ black0.contrast_ratio white0 ≤ 21) :=
  ⟨black0_valid, white0_valid,
    (contrast_ratio_bounds black0 white0 black0_valid white0_valid).1⟩

theorem mkColorTup_ok_valid {r g b a : ℝ} {c : Color}
    (h : mkColorTup r g b a = .ok c) : c.Valid := by
  rw [mkColorTup] at h
  by_cases hc : (0 ≤ r ∧ r ≤ 1) ∧ (0 ≤ g ∧ g ≤ 1) ∧ (0 ≤ b ∧ b ≤ 1) ∧ (0 ≤ a ∧ a ≤ 1)
  · rw [if_pos hc] at h
    injection h with h'
    subst h'
    exact hc
  · rw [if_neg hc] at h
    exact absurd h (by simp)

theorem mkColorTup_valid_ok {r g b a : ℝ} (h : (Color.mk r g b a).Valid) :
    mkColorTup r g b a = .ok ⟨r, g, b, a⟩ := by
  rw [mkColorTup]
  exact if_pos h

theorem mkColorTup_invalid {r g b a : ℝ} (h : ¬ (Color.mk r g b a).Valid) :
    mkColorTup r g b a = .error "Color values must be between 0 and 1." := by
  rw [mkColorTup]
  exact if_neg h

/-- C2 counterexample: copying a `Color` while overriding the alpha performs
no validation, so an out-of-range alpha is stored without an error. -/
theorem colorInit_copy_skips_validation :
    colorInit (.fromColor white0) (some 2) = .ok (Color.mk 1 1 1 2) ∧
      ¬ (Color.mk 1 1 1 2).Valid := by
  constructor
  · rfl
  · intro h
    exact absurd h.2.2.2.2 (by norm_num)

/-- C2 (amended): the sequence path and the (parsed) string path of
`Color.__init__` validate all four channels against `[0,1]` and raise
`ValueError` otherwise, but the copy-with-override path stores the overriding
alpha with no validation at all. -/
theorem colorInit_validation (vals : List ℝ) (alpha : Option ℝ)
    (tr tg tb ta al : ℝ) (c d : Color) :
    (colorInit (.fromSeq vals) alpha = .ok c → c.Valid) ∧
    (colorInit (.fromStr (some (tr, tg, tb, ta))) alpha = .ok c → c.Valid) ∧
    (¬ (Color.mk tr tg tb ta).Valid →
      colorInit (.fromStr (some (tr, tg, tb, ta))) none =
        .error "Color values must be between 0 and 1.") ∧
    colorInit (.fromColor d) (some al) = .ok { d with a := al } := by
  refine ⟨?_, ?_, ?_, rfl⟩
  · intro h
    simp only [colorInit] at h
    by_cases hl : vals.length < 3
    · rw [if_pos hl] at h
      exact absurd h (by simp)
    · rw [if_neg hl] at h
      exact mkColorTup_ok_valid h
  · intro h
    simp only [colorInit] at h
    exact mkColorTup_ok_valid h
  · intro h
    simp only [colorInit]
    exact mkColorTup_invalid h

/-- Witness for C2 (amended) at a concrete out-of-range parsed string. -/
theorem colorInit_validation_witness :
    ¬ (Color.mk 2 0 0 1).Valid ∧
      colorInit (.fromStr (some (2, 0, 0, 1))) none =
        .error "Color values must be between 0 and 1." :=
  ⟨fun h => absurd h.1.2 (by norm_num),
    (colorInit_validation [] none 2 0 0 1 0 black0 black0).2.2.1
      (fun h => absurd h.1.2 (by norm_num))⟩

theorem rgb_to_hls_gray (v : ℝ) : rgb_to_hls v v v = (0, v, 0) := by
  simp [rgb_to_hls]

theorem hls_to_rgb_s0 (h l : ℝ) : hls_to_rgb h l 0 = (l, l, l) := by
  rw [hls_to_rgb, if_pos rfl]

theorem rgb_to_hsv_gray (v : ℝ) : rgb_to_hsv v v v = (0, 0, v) := by
  simp [rgb_to_hsv]

theorem hsv_to_rgb_s0 (h v : ℝ) : hsv_to_rgb h 0 v = (v, v, v) := by
  rw [hsv_to_rgb, if_pos rfl]

theorem adjust_lightness_gray (v a f : ℝ) :
    (Color.mk v v v a).adjust_lightness f =
      mkColorTup (min 1 (max 0 (v * f))) (min 1 (max 0 (v * f)))
        (min 1 (max 0 (v * f))) a := by
  simp [Color.adjust_lightness, Color.hsl, rgb_to_hls_gray, hls_to_rgb_s0]

theorem adjust_brightness_gray (v a f : ℝ) :
    (Color.mk v v v a).adjust_brightness f =
      mkColorTup (min 1 (max 0 (v * f))) (min 1 (max 0 (v * f)))
        (min 1 (max 0 (v * f))) a := by
  simp [Color.adjust_brightness, Color.hsv, rgb_to_hsv_gray, hsv_to_rgb_s0]

theorem luminance_ones (a : ℝ) : (Color.mk 1 1 1 a).luminance = 1 := by
  show 0.2126 * linearize 1 + 0.7152 * linearize 1 + 0.0722 * linearize 1 = 1
  rw [linearize_one]
  norm_num

/-- A white with an (invalid) alpha of 2, as produced by the unvalidated
copy-with-override construction path. -/
def badWhite : Color := ⟨1, 1, 1, 2⟩

theorem badWhite_contrast : badWhite.contrast_ratio white0 = 1 := by
  rw [Color.contrast_ratio]
  rw [show badWhite.luminance = 1 from luminance_ones 2,
    show white0.luminance = 1 from luminance_ones 1]
  rw [if_neg (lt_irrefl 1)]
  norm_num

theorem badWhite_adjust_error :
    badWhite.adjust_lightness 0.9 = .error "Color values must be between 0 and 1." := by
  rw [show badWhite = Color.mk 1 1 1 2 from rfl, adjust_lightness_gray]
  rw [show min 1 (max 0 ((1:ℝ) * 0.9)) = 0.9 by norm_num]
  exact mkColorTup_invalid (fun h => absurd h.2.2.2.2 (by norm_num))

/-- C3 counterexample: when the adjustment primitive raises inside
`find_accessible_color`'s loop (here: the re-validation of the invalid alpha
produced by the unvalidated copy path), the error propagates to the caller
instead of the last good colour being returned. -/
theorem find_accessible_color_error_cex :
    find_accessible_color badWhite white0 "AA" true =
      .error "Color values must be between 0 and 1." := by
  simp only [find_accessible_color, required_ratio_AA]
  rw [if_neg (by rw [badWhite_contrast]; norm_num)]
  rw [show (50 : ℕ) = 49 + 1 from rfl, falLoop]
  rw [if_pos (by rw [badWhite_contrast]; norm_num)]
  have hfac : (if badWhite.luminance > white0.luminance then (1.1 : ℝ) else 0.9) = 0.9 := by
    rw [show badWhite.luminance = 1 from luminance_ones 2,
      show white0.luminance = 1 from luminance_ones 1]
    rw [if_neg (lt_irrefl 1)]
  rw [hfac]
  rw [show adjustPrim true badWhite 0.9 = badWhite.adjust_lightness 0.9 from rfl]
  rw [badWhite_adjust_error]

/-- C3 (amended): `find_accessible_color` has no error handling in its loop:
if the base is below the required ratio and the first application of the
adjustment primitive raises, the error propagates to the caller (the
catch-and-degrade behaviour belongs to the `find_maximal_contrast_*`
strategies, not to this function). -/
theorem find_accessible_color_propagates (base target : Color) (level : String)
    (lightness : Bool) (e : String)
    (hbelow : base.contrast_ratio target < required_ratio level)
    (herr : adjustPrim lightness base
      (if base.luminance > target.luminance then 1.1 else 0.9) = .error e) :
    find_accessible_color base target level lightness = .error e := by
  simp only [find_accessible_color]
  rw [if_neg (not_le.mpr hbelow)]
  rw [show (50 : ℕ) = 49 + 1 from rfl, falLoop]
  rw [if_pos hbelow]
  rw [herr]

/-- Witness for C3 (amended) at the concrete invalid-alpha colour. -/
theorem find_accessible_color_propagates_witness :
    badWhite.contrast_ratio white0 < required_ratio "AA" ∧
      find_accessible_color badWhite white0 "AA" true =
        .error "Color values must be between 0 and 1." := by
  have h1 : badWhite.contrast_ratio white0 < required_ratio "AA" := by
    rw [badWhite_contrast, required_ratio_AA]
    norm_num
  have h2 : adjustPrim true badWhite
      (if badWhite.luminance > white0.luminance then 1.1 else 0.9) =
        .error "Color values must be between 0 and 1." := by
    rw [show badWhite.luminance = 1 from luminance_ones 2,
      show white0.luminance = 1 from luminance_ones 1]
    rw [if_neg (lt_irrefl 1)]
    rw [show adjustPrim true badWhite 0.9 = badWhite.adjust_lightness 0.9 from rfl]
    exact badWhite_adjust_error
  exact ⟨h1, find_accessible_color_propagates badWhite white0 "AA" true _ h1 h2⟩

theorem iterDirLoop_ge (target : Color) (lightness : Bool) (factor : ℝ)
    (n : ℕ) :
    ∀ (temp : Color) (best : Color × ℝ),
      best.2 = best.1.contrast_ratio target →
      (iterDirLoop target lightness factor n temp best).2 =
          (iterDirLoop target lightness factor n temp best).1.contrast_ratio target ∧
        best.2 ≤ (iterDirLoop target lightness factor n temp best).2 := by
  induction n with
  | zero =>
      intro temp best hb
      rw [iterDirLoop]
      exact ⟨hb, le_refl _⟩
  | succ n IH =>
      intro temp best hb
      rw [iterDirLoop]
      cases hadj : adjustPrim lightness temp factor with
      | error e => exact ⟨hb, le_refl _⟩
      | ok next =>
          simp only []
          by_cases hgt : next.contrast_ratio target > best.2
          · rw [if_pos hgt]
            exact ⟨(IH next (next, next.contrast_ratio target) rfl).1,
              le_trans (le_of_lt hgt) (IH next (next, next.contrast_ratio target) rfl).2⟩
          · rw [if_neg hgt]
            exact ⟨hb, le_refl _⟩

theorem binDirLoop_ge (base target : Color) (lightness : Bool)
    (required precision : ℝ) (lighter : Bool) (n : ℕ) :
    ∀ (low high : ℝ) (best : Color × ℝ),
      best.2 = best.1.contrast_ratio target →
      (binDirLoop base target lightness required precision lighter n low high best).2 =
          (binDirLoop base target lightness required precision lighter n low high
            best).1.contrast_ratio target ∧
        best.2 ≤
          (binDirLoop base target lightness required precision lighter n low high best).2 := by
  induction n with
  | zero =>
      intro low high best hb
      rw [binDirLoop]
      exact ⟨hb, le_refl _⟩
  | succ n IH =>
      intro low high best hb
      rw [binDirLoop]
      split
      · split
        · exact ⟨hb, le_refl _⟩
        · rename_i test heq
          have hb' : (if test.contrast_ratio target > best.2
                then (test, test.contrast_ratio target) else best).2 =
              (if test.contrast_ratio target > best.2
                then (test, test.contrast_ratio target) else best).1.contrast_ratio target ∧
              best.2 ≤ (if test.contrast_ratio target > best.2
                then (test, test.contrast_ratio target) else best).2 := by
            by_cases hgt : test.contrast_ratio target > best.2
            · rw [if_pos hgt]
              exact ⟨rfl, le_of_lt hgt⟩
            · rw [if_neg hgt]
              exact ⟨hb, le_refl _⟩
          split
          · split
            · exact ⟨(IH _ _ _ hb'.1).1, le_trans hb'.2 (IH _ _ _ hb'.1).2⟩
            · exact ⟨(IH _ _ _ hb'.1).1, le_trans hb'.2 (IH _ _ _ hb'.1).2⟩
          · split
            · exact ⟨(IH _ _ _ hb'.1).1, le_trans hb'.2 (IH _ _ _ hb'.1).2⟩
            · exact ⟨(IH _ _ _ hb'.1).1, le_trans hb'.2 (IH _ _ _ hb'.1).2⟩
      · exact ⟨hb, le_refl _⟩

/-- C1 (amended): `find_maximal_contrast_iterative` and
`find_maximal_contrast_binary_search` never return a colour whose contrast
against the target is worse than the base's (for every level, basis flag,
step size, precision and fuel); `find_maximal_contrast_optimization` gives
no such guarantee (see the counterexample for the golden-section method). -/
theorem maximal_contrast_non_regression (base target : Color) (level : String)
    (adjust_lightness : Bool) (step_size precision : ℝ) (max_attempts fuel : ℕ) :
    base.contrast_ratio target ≤
        (find_maximal_contrast_iterative base target level adjust_lightness
          step_size max_attempts).contrast_ratio target ∧
      base.contrast_ratio target ≤
        (find_maximal_contrast_binary_search base target level adjust_lightness
          precision fuel).contrast_ratio target := by
  constructor
  · rw [find_maximal_contrast_iterative]
    have h1 := iterDirLoop_ge target adjust_lightness (1 + step_size) max_attempts
      base (base, base.contrast_ratio target) rfl
    have h2 := iterDirLoop_ge target adjust_lightness (1 - step_size) max_attempts
      base _ h1.1
    calc base.contrast_ratio target
        ≤ (iterDirLoop target adjust_lightness (1 + step_size) max_attempts base
            (base, base.contrast_ratio target)).2 := h1.2
      _ ≤ _ := h2.2
      _ = _ := h2.1
  · rw [find_maximal_contrast_binary_search]
    have h1 := binDirLoop_ge base target adjust_lightness (required_ratio level)
      precision true fuel 1.0 3.0 (base, base.contrast_ratio target) rfl
    have h2 := binDirLoop_ge base target adjust_lightness (required_ratio level)
      precision false fuel 0.1 1.0 _ h1.1
    calc base.contrast_ratio target
        ≤ (binDirLoop base target adjust_lightness (required_ratio level) precision
            true fuel 1.0 3.0 (base, base.contrast_ratio target)).2 := h1.2
      _ ≤ _ := h2.2
      _ = _ := h2.1

theorem pymod1_nonneg (x : ℝ) : 0 ≤ pymod1 x := by
  rw [pymod1]
  have := Int.floor_le x
  linarith

theorem pymod1_lt_one (x : ℝ) : pymod1 x < 1 := by
  rw [pymod1]
  have := Int.lt_floor_add_one x
  linarith

theorem pytrunc_of_nonneg {x : ℝ} (h : 0 ≤ x) : pytrunc x = ⌊x⌋ := by
  rw [pytrunc, if_pos h]

theorem rgb_to_hsv_h_nonneg (r g b : ℝ) : 0 ≤ (rgb_to_hsv r g b).1 := by
  rw [rgb_to_hsv]
  split
  · exact le_refl 0
  · exact pymod1_nonneg _

theorem rgb_to_hsv_h_lt_one (r g b : ℝ) : (rgb_to_hsv r g b).1 < 1 := by
  rw [rgb_to_hsv]
  split
  · norm_num
  · exact pymod1_lt_one _

theorem rgb_to_hsv_s_mem {r g b : ℝ} (hr : 0 ≤ r) (hg : 0 ≤ g) (hb : 0 ≤ b) :
    0 ≤ (rgb_to_hsv r g b).2.1 ∧ (rgb_to_hsv r g b).2.1 ≤ 1 := by
  rw [rgb_to_hsv]
  split
  · norm_num
  · rename_i hne
    have hmin : 0 ≤ min r (min g b) := le_min hr (le_min hg hb)
    have hminmax : min r (min g b) ≤ max r (max g b) :=
      le_trans (min_le_left _ _) (le_max_left _ _)
    have hmax : 0 < max r (max g b) := by
      rcases lt_or_eq_of_le (le_trans hmin hminmax) with h | h
      · exact h
      · exact absurd (le_antisymm hminmax (h ▸ hmin)) hne
    constructor
    · exact div_nonneg (by linarith) (le_of_lt hmax)
    · rw [div_le_one hmax]
      linarith

theorem rgb_to_hsv_v_mem {r g b : ℝ} (hr : 0 ≤ r ∧ r ≤ 1) (hg : 0 ≤ g ∧ g ≤ 1)
    (hb : 0 ≤ b ∧ b ≤ 1) :
    0 ≤ (rgb_to_hsv r g b).2.2 ∧ (rgb_to_hsv r g b).2.2 ≤ 1 := by
  have hv : (rgb_to_hsv r g b).2.2 = max r (max g b) := by
    rw [rgb_to_hsv]
    split
    · rfl
    · rfl
  rw [hv]
  constructor
  · exact le_trans hr.1 (le_max_left _ _)
  · exact max_le hr.2 (max_le hg.2 hb.2)

theorem hsv_to_rgb_mem {h s v : ℝ} (hh : 0 ≤ h) (hs0 : 0 ≤ s) (hs1 : s ≤ 1)
    (hv0 : 0 ≤ v) (hv1 : v ≤ 1) :
    (0 ≤ (hsv_to_rgb h s v).1 ∧ (hsv_to_rgb h s v).1 ≤ 1) ∧
      (0 ≤ (hsv_to_rgb h s v).2.1 ∧ (hsv_to_rgb h s v).2.1 ≤ 1) ∧
      (0 ≤ (hsv_to_rgb h s v).2.2 ∧ (hsv_to_rgb h s v).2.2 ≤ 1) := by
  simp only [hsv_to_rgb]
  have htr : pytrunc (h * 6) = ⌊h * 6⌋ := pytrunc_of_nonneg (by positivity)
  have hf0 : 0 ≤ h * 6 - (pytrunc (h * 6) : ℝ) := by
    rw [htr]
    have := Int.floor_le (h * 6)
    linarith
  have hf1 : h * 6 - (pytrunc (h * 6) : ℝ) ≤ 1 := by
    rw [htr]
    have := Int.lt_floor_add_one (h * 6)
    linarith
  have hsf0 : 0 ≤ s * (h * 6 - (pytrunc (h * 6) : ℝ)) := mul_nonneg hs0 hf0
  have hsf1 : s * (h * 6 - (pytrunc (h * 6) : ℝ)) ≤ 1 := mul_le_one hs1 hf0 hf1
  have hsg0 : 0 ≤ s * (1 - (h * 6 - (pytrunc (h * 6) : ℝ))) :=
    mul_nonneg hs0 (by linarith)
  have hsg1 : s * (1 - (h * 6 - (pytrunc (h * 6) : ℝ))) ≤ 1 :=
    mul_le_one hs1 (by linarith) (by linarith)
  have hp0 : 0 ≤ v * (1 - s) := mul_nonneg hv0 (by linarith)
  have hp1 : v * (1 - s) ≤ 1 := mul_le_one hv1 (by linarith) (by linarith)
  have hq0 : 0 ≤ v * (1 - s * (h * 6 - (pytrunc (h * 6) : ℝ))) :=
    mul_nonneg hv0 (by linarith)
  have hq1 : v * (1 - s * (h * 6 - (pytrunc (h * 6) : ℝ))) ≤ 1 :=
    mul_le_one hv1 (by linarith) (by linarith)
  have ht0 : 0 ≤ v * (1 - s * (1 - (h * 6 - (pytrunc (h * 6) : ℝ)))) :=
    mul_nonneg hv0 (by linarith)
  have ht1 : v * (1 - s * (1 - (h * 6 - (pytrunc (h * 6) : ℝ)))) ≤ 1 :=
    mul_le_one hv1 (by linarith) (by linarith)
  split
  · exact ⟨⟨hv0, hv1⟩, ⟨hv0, hv1⟩, hv0, hv1⟩
  · split
    · exact ⟨⟨hv0, hv1⟩, ⟨ht0, ht1⟩, hp0, hp1⟩
    · split
      · exact ⟨⟨hq0, hq1⟩, ⟨hv0, hv1⟩, hp0, hp1⟩
      · split
        · exact ⟨⟨hp0, hp1⟩, ⟨hv0, hv1⟩, ht0, ht1⟩
        · split
          · exact ⟨⟨hp0, hp1⟩, ⟨hq0, hq1⟩, hv0, hv1⟩
          · split
            · exact ⟨⟨ht0, ht1⟩, ⟨hp0, hp1⟩, hv0, hv1⟩
            · exact ⟨⟨hv0, hv1⟩, ⟨hp0, hp1⟩, hq0, hq1⟩

theorem prodThird (x y z : ℝ) : ((x, y, z) : ℝ × ℝ × ℝ).2.2 = z := rfl

theorem prodSecond (x y z : ℝ) : ((x, y, z) : ℝ × ℝ × ℝ).2.1 = y := rfl

theorem prodFirst (x y z : ℝ) : ((x, y, z) : ℝ × ℝ × ℝ).1 = x := rfl

theorem rgb_to_hls_s_mem {r g b : ℝ} (hr : 0 ≤ r ∧ r ≤ 1) (hg : 0 ≤ g ∧ g ≤ 1)
    (hb : 0 ≤ b ∧ b ≤ 1) :
    0 ≤ (rgb_to_hls r g b).2.2 ∧ (rgb_to_hls r g b).2.2 ≤ 1 := by
  rw [rgb_to_hls]
  have hmin : 0 ≤ min r (min g b) := le_min hr.1 (le_min hg.1 hb.1)
  have hmax1 : max r (max g b) ≤ 1 := max_le hr.2 (max_le hg.2 hb.2)
  have hminmax : min r (min g b) ≤ max r (max g b) :=
    le_trans (min_le_left _ _) (le_max_left _ _)
  split
  · norm_num
  · rename_i hne
    have hlt : min r (min g b) < max r (max g b) := lt_of_le_of_ne hminmax hne
    rw [prodThird]
    split
    · constructor
      · exact div_nonneg (by linarith) (by linarith)
      · rw [div_le_one (by linarith)]
        linarith
    · constructor
      · exact div_nonneg (by linarith) (by linarith)
      · rw [div_le_one (by linarith)]
        linarith

theorem hls_v_mem {m1 m2 : ℝ} (h0 : 0 ≤ m1) (h12 : m1 ≤ m2) (h21 : m2 ≤ 1)
    (hue : ℝ) : 0 ≤ hls_v m1 m2 hue ∧ hls_v m1 m2 hue ≤ 1 := by
  simp only [hls_v]
  have hu0 : 0 ≤ pymod1 hue := pymod1_nonneg hue
  have hu1 : pymod1 hue < 1 := pymod1_lt_one hue
  split
  · rename_i hcase
    exact ⟨by nlinarith, by nlinarith⟩
  · rename_i hcase1
    split
    · exact ⟨le_trans h0 h12, h21⟩
    · rename_i hcase2
      split
      · rename_i hcase3
        push_neg at hcase1 hcase2
        exact ⟨by nlinarith, by nlinarith⟩
      · exact ⟨h0, le_trans h12 h21⟩

theorem hls_to_rgb_mem {h l s : ℝ} (hl0 : 0 ≤ l) (hl1 : l ≤ 1) (hs0 : 0 ≤ s)
    (hs1 : s ≤ 1) :
    (0 ≤ (hls_to_rgb h l s).1 ∧ (hls_to_rgb h l s).1 ≤ 1) ∧
      (0 ≤ (hls_to_rgb h l s).2.1 ∧ (hls_to_rgb h l s).2.1 ≤ 1) ∧
      (0 ≤ (hls_to_rgb h l s).2.2 ∧ (hls_to_rgb h l s).2.2 ≤ 1) := by
  simp only [hls_to_rgb]
  split
  · exact ⟨⟨hl0, hl1⟩, ⟨hl0, hl1⟩, hl0, hl1⟩
  · have key : ∀ m2 : ℝ, m2 = (if l ≤ 1/2 then l * (1 + s) else l + s - l * s) →
        0 ≤ 2 * l - m2 ∧ 2 * l - m2 ≤ m2 ∧ m2 ≤ 1 := by
      intro m2 hm2
      by_cases hc : l ≤ 1/2
      · rw [if_pos hc] at hm2
        subst hm2
        refine ⟨by nlinarith, by nlinarith, by nlinarith⟩
      · rw [if_neg hc] at hm2
        push_neg at hc
        subst hm2
        refine ⟨by nlinarith, by nlinarith, by nlinarith⟩
    obtain ⟨k1, k2, k3⟩ := key _ rfl
    exact ⟨hls_v_mem k1 k2 k3 _, hls_v_mem k1 k2 k3 _, hls_v_mem k1 k2 k3 _⟩

theorem adjust_lightness_ok {c : Color} (hc : c.Valid) (f : ℝ) :
    ∃ c', c.adjust_lightness f = .ok c' ∧ c'.Valid ∧ c'.a = c.a := by
  obtain ⟨hr, hg, hb, ha⟩ := hc
  have hs := rgb_to_hls_s_mem hr hg hb
  have hl0 : (0:ℝ) ≤ min 1 (max 0 ((Color.hsl c).2.2 * f)) :=
    le_min (by norm_num) (le_max_left _ _)
  have hl1 : min 1 (max 0 ((Color.hsl c).2.2 * f)) ≤ 1 := min_le_left _ _
  have hmem := hls_to_rgb_mem (h := (Color.hsl c).1 / 360)
    hl0 hl1 hs.1 hs.2
  rw [Color.adjust_lightness]
  rw [mkColorTup]
  rw [if_pos ⟨hmem.1, hmem.2.1, hmem.2.2, ha⟩]
  exact ⟨_, rfl, ⟨hmem.1, hmem.2.1, hmem.2.2, ha⟩, rfl⟩

theorem Color_hsv_1 (c : Color) :
    (Color.hsv c).1 = (rgb_to_hsv c.r c.g c.b).1 * 360 := rfl

theorem Color_hsv_s (c : Color) :
    (Color.hsv c).2.1 = (rgb_to_hsv c.r c.g c.b).2.1 := rfl

theorem Color_hsv_v (c : Color) :
    (Color.hsv c).2.2 = (rgb_to_hsv c.r c.g c.b).2.2 := rfl

theorem Color_hsl_1 (c : Color) :
    (Color.hsl c).1 = (rgb_to_hls c.r c.g c.b).1 * 360 := rfl

theorem Color_hsl_s (c : Color) :
    (Color.hsl c).2.1 = (rgb_to_hls c.r c.g c.b).2.2 := rfl

theorem Color_hsl_l (c : Color) :
    (Color.hsl c).2.2 = (rgb_to_hls c.r c.g c.b).2.1 := rfl

theorem clamp01_mem (x : ℝ) : 0 ≤ min 1 (max 0 x) ∧ min 1 (max 0 x) ≤ 1 :=
  ⟨le_min (by norm_num) (le_max_left _ _), min_le_left _ _⟩

theorem adjust_brightness_ok {c : Color} (hc : c.Valid) (f : ℝ) :
    ∃ c', c.adjust_brightness f = .ok c' ∧ c'.Valid ∧ c'.a = c.a := by
  obtain ⟨hr, hg, hb, ha⟩ := hc
  have hh : 0 ≤ (Color.hsv c).1 / 360 := by
    rw [Color_hsv_1]
    exact div_nonneg (mul_nonneg (rgb_to_hsv_h_nonneg _ _ _) (by norm_num)) (by norm_num)
  have hs : 0 ≤ (Color.hsv c).2.1 ∧ (Color.hsv c).2.1 ≤ 1 := by
    rw [Color_hsv_s]
    exact rgb_to_hsv_s_mem hr.1 hg.1 hb.1
  have hcl := clamp01_mem ((Color.hsv c).2.2 * f)
  have hmem := hsv_to_rgb_mem hh hs.1 hs.2 hcl.1 hcl.2
  simp only [Color.adjust_brightness]
  rw [mkColorTup]
  rw [if_pos ⟨hmem.1, hmem.2.1, hmem.2.2, ha⟩]
  exact ⟨_, rfl, ⟨hmem.1, hmem.2.1, hmem.2.2, ha⟩, rfl⟩

theorem adjust_saturation_ok {c : Color} (hc : c.Valid) (f : ℝ) :
    ∃ c', c.adjust_saturation f = .ok c' ∧ c'.Valid ∧ c'.a = c.a := by
  obtain ⟨hr, hg, hb, ha⟩ := hc
  have hh : 0 ≤ (Color.hsv c).1 / 360 := by
    rw [Color_hsv_1]
    exact div_nonneg (mul_nonneg (rgb_to_hsv_h_nonneg _ _ _) (by norm_num)) (by norm_num)
  have hv : 0 ≤ (Color.hsv c).2.2 ∧ (Color.hsv c).2.2 ≤ 1 := by
    rw [Color_hsv_v]
    exact rgb_to_hsv_v_mem hr hg hb
  have hcl := clamp01_mem ((Color.hsv c).2.1 * f)
  have hmem := hsv_to_rgb_mem hh hcl.1 hcl.2 hv.1 hv.2
  simp only [Color.adjust_saturation]
  rw [mkColorTup]
  rw [if_pos ⟨hmem.1, hmem.2.1, hmem.2.2, ha⟩]
  exact ⟨_, rfl, ⟨hmem.1, hmem.2.1, hmem.2.2, ha⟩, rfl⟩

theorem finalSelect_ok {base : Color} (hb : base.Valid) (target : Color) (bf : ℝ) :
    ∃ c, finalSelect base target bf = .ok c ∧ c.Valid := by
  obtain ⟨lc, hlc, hlcv, _⟩ := adjust_lightness_ok hb bf
  obtain ⟨bc, hbc, hbcv, _⟩ := adjust_brightness_ok hb bf
  rw [finalSelect, hlc, hbc]
  refine ⟨_, rfl, ?_⟩
  by_cases hgt : lc.contrast_ratio target > bc.contrast_ratio target
  · rw [if_pos hgt]
    exact hlcv
  · rw [if_neg hgt]
    exact hbcv

/-- C6: `find_maximal_contrast_optimization` raises exactly for a method
other than `"golden_section"`/`"gradient_descent"` (immediately, with no
fallback result), and for the two recognized methods it always returns a
valid `Color`. -/
theorem optimization_method_errors (base target : Color) (level method : String)
    (fuel : ℕ) (hb : base.Valid) :
    (method ≠ "golden_section" → method ≠ "gradient_descent" →
      find_maximal_contrast_optimization base target level method fuel =
        .error ("Unknown optimization method: " ++ method)) ∧
    (method = "golden_section" ∨ method = "gradient_descent" →
      ∃ c, find_maximal_contrast_optimization base target level method fuel =
        .ok c ∧ c.Valid) := by
  constructor
  · intro h1 h2
    rw [find_maximal_contrast_optimization, if_neg h1, if_neg h2]
  · rintro (h | h)
    · rw [find_maximal_contrast_optimization, if_pos h]
      exact finalSelect_ok hb target _
    · by_cases hgs : method = "golden_section"
      · rw [find_maximal_contrast_optimization, if_pos hgs]
        exact finalSelect_ok hb target _
      · rw [find_maximal_contrast_optimization, if_neg hgs, if_pos h]
        exact finalSelect_ok hb target _

/-- Witness for C6: a bogus method errors; golden-section on black/white
returns a valid colour. -/
theorem optimization_method_errors_witness :
    black0.Valid ∧
      find_maximal_contrast_optimization black0 white0 "AA" "not_a_method" 100 =
        .error ("Unknown optimization method: " ++ "not_a_method") ∧
      (∃ c, find_maximal_contrast_optimization black0 white0 "AA" "golden_section" 100 =
        .ok c ∧ c.Valid) :=
  ⟨black0_valid,
    (optimization_method_errors black0 white0 "AA" "not_a_method" 100 black0_valid).1
      (by decide) (by decide),
    (optimization_method_errors black0 white0 "AA" "golden_section" 100 black0_valid).2
      (Or.inl rfl)⟩

theorem pymod1_eq_self {x : ℝ} (h0 : 0 ≤ x) (h1 : x < 1) : pymod1 x = x := by
  rw [pymod1]
  rw [show ⌊x⌋ = 0 from Int.floor_eq_iff.mpr (by constructor <;> push_cast <;> linarith)]
  push_cast
  ring

theorem pymod1_eq_add_one {x : ℝ} (h0 : -1 ≤ x) (h1 : x < 0) : pymod1 x = x + 1 := by
  rw [pymod1]
  rw [show ⌊x⌋ = -1 from Int.floor_eq_iff.mpr (by constructor <;> push_cast <;> linarith)]
  push_cast
  ring

theorem rgb_to_hsv_case_vtp (v t p : ℝ) (hpt : p ≤ t) (htv : t ≤ v) (hpv : p < v) :
    rgb_to_hsv v t p =
      (pymod1 (((v - p) / (v - p) - (v - t) / (v - p)) / 6), (v - p) / v, v) := by
  have hmax : max v (max t p) = v := max_eq_left (max_le htv (le_trans hpt htv))
  have hmin : min v (min t p) = p := by
    rw [min_eq_right hpt]
    exact min_eq_right hpv.le
  simp only [rgb_to_hsv, hmax, hmin]
  rw [if_neg (ne_of_lt hpv), if_pos trivial]

theorem rgb_to_hsv_case_qvp (q v p : ℝ) (hpq : p ≤ q) (hqv : q < v) (hpv : p < v) :
    rgb_to_hsv q v p =
      (pymod1 ((2 + (v - q) / (v - p) - (v - p) / (v - p)) / 6), (v - p) / v, v) := by
  have hmax : max q (max v p) = v := by
    rw [max_eq_left hpv.le]
    exact max_eq_right hqv.le
  have hmin : min q (min v p) = p := by
    rw [min_eq_right hpv.le]
    exact min_eq_right hpq
  simp only [rgb_to_hsv, hmax, hmin]
  rw [if_neg (ne_of_lt hpv), if_neg (ne_of_lt hqv), if_pos trivial]

theorem rgb_to_hsv_case_pvt (p v t : ℝ) (hpt : p ≤ t) (htv : t ≤ v) (hpv : p < v) :
    rgb_to_hsv p v t =
      (pymod1 ((2 + (v - p) / (v - p) - (v - t) / (v - p)) / 6), (v - p) / v, v) := by
  have hmax : max p (max v t) = v := by
    rw [max_eq_left htv]
    exact max_eq_right hpv.le
  have hmin : min p (min v t) = p := by
    rw [min_eq_right htv]
    exact min_eq_left hpt
  simp only [rgb_to_hsv, hmax, hmin]
  rw [if_neg (ne_of_lt hpv), if_neg (ne_of_lt hpv), if_pos trivial]

theorem rgb_to_hsv_case_pqv (p q v : ℝ) (hpq : p ≤ q) (hqv : q < v) (hpv : p < v) :
    rgb_to_hsv p q v =
      (pymod1 ((4 + (v - q) / (v - p) - (v - p) / (v - p)) / 6), (v - p) / v, v) := by
  have hmax : max p (max q v) = v := by
    rw [max_eq_right hqv.le]
    exact max_eq_right hpv.le
  have hmin : min p (min q v) = p := by
    rw [min_eq_left hqv.le]
    exact min_eq_left hpq
  simp only [rgb_to_hsv, hmax, hmin]
  rw [if_neg (ne_of_lt hpv), if_neg (ne_of_lt hpv), if_neg (ne_of_lt hqv)]

theorem rgb_to_hsv_case_pvv (p v : ℝ) (hpv : p < v) :
    rgb_to_hsv p v v =
      (pymod1 ((2 + (v - p) / (v - p) - (v - v) / (v - p)) / 6), (v - p) / v, v) := by
  have hmax : max p (max v v) = v := by
    rw [max_self]
    exact max_eq_right hpv.le
  have hmin : min p (min v v) = p := by
    rw [min_self]
    exact min_eq_left hpv.le
  simp only [rgb_to_hsv, hmax, hmin]
  rw [if_neg (ne_of_lt hpv), if_neg (ne_of_lt hpv), if_pos trivial]

theorem rgb_to_hsv_case_tpv (t p v : ℝ) (hpt : p ≤ t) (htv : t < v) (hpv : p < v) :
    rgb_to_hsv t p v =
      (pymod1 ((4 + (v - p) / (v - p) - (v - t) / (v - p)) / 6), (v - p) / v, v) := by
  have hmax : max t (max p v) = v := by
    rw [max_eq_right hpv.le]
    exact max_eq_right htv.le
  have hmin : min t (min p v) = p := by
    rw [min_eq_left hpv.le]
    exact min_eq_right hpt
  simp only [rgb_to_hsv, hmax, hmin]
  rw [if_neg (ne_of_lt hpv), if_neg (ne_of_lt htv), if_neg (ne_of_lt hpv)]

theorem rgb_to_hsv_case_vpq (v p q : ℝ) (hpq : p ≤ q) (hqv : q ≤ v) (hpv : p < v) :
    rgb_to_hsv v p q =
      (pymod1 (((v - q) / (v - p) - (v - p) / (v - p)) / 6), (v - p) / v, v) := by
  have hmax : max v (max p q) = v := by
    rw [max_eq_right hpq]
    exact max_eq_left hqv
  have hmin : min v (min p q) = p := by
    rw [min_eq_left hpq]
    exact min_eq_right hpv.le
  simp only [rgb_to_hsv, hmax, hmin]
  rw [if_neg (ne_of_lt hpv), if_pos trivial]

/-- Exact HSV round trip: converting `(h, s, v)` (internal scale, non-gray,
non-black) to RGB and back recovers the triple exactly in real arithmetic. -/
theorem hsv_round_trip {h s v : ℝ} (hh0 : 0 ≤ h) (hh1 : h < 1) (hs0 : 0 < s)
    (hs1 : s ≤ 1) (hv0 : 0 < v) :
    rgb_to_hsv (hsv_to_rgb h s v).1 (hsv_to_rgb h s v).2.1 (hsv_to_rgb h s v).2.2
      = (h, s, v) := by
  have hsne : s ≠ 0 := ne_of_gt hs0
  have hvne : v ≠ 0 := ne_of_gt hv0
  have hvs : (0:ℝ) < v * s := mul_pos hv0 hs0
  have hvsne : v * s ≠ 0 := ne_of_gt hvs
  have hpv : v * (1 - s) < v := by nlinarith
  have e1 : v - v * (1 - s) = v * s := by ring
  have hs_comp : (v - v * (1 - s)) / v = s := by
    rw [e1, show v * s = s * v by ring, mul_div_assoc, div_self hvne, mul_one]
  have htr : pytrunc (h * 6) = ⌊h * 6⌋ := pytrunc_of_nonneg (by positivity)
  have hcases : ⌊h * 6⌋ = 0 ∨ ⌊h * 6⌋ = 1 ∨ ⌊h * 6⌋ = 2 ∨ ⌊h * 6⌋ = 3 ∨
      ⌊h * 6⌋ = 4 ∨ ⌊h * 6⌋ = 5 := by
    have h1 : 0 ≤ ⌊h * 6⌋ := Int.floor_nonneg.mpr (by positivity)
    have h2 : ⌊h * 6⌋ < 6 := Int.floor_lt.mpr (by push_cast; linarith)
    omega
  have hfl := Int.floor_le (h * 6)
  have hfu := Int.lt_floor_add_one (h * 6)
  rcases hcases with hk | hk | hk | hk | hk | hk <;> rw [hk] at hfl hfu <;>
    push_cast at hfl hfu
  · -- i = 0: (v, t, p)
    have hrgb : hsv_to_rgb h s v = (v, v * (1 - s * (1 - h * 6)), v * (1 - s)) := by
      simp only [hsv_to_rgb]
      rw [if_neg hsne, htr, hk]
      norm_num
    have hpt : v * (1 - s) ≤ v * (1 - s * (1 - h * 6)) := by nlinarith
    have htv : v * (1 - s * (1 - h * 6)) ≤ v := by nlinarith
    rw [hrgb, prodFirst, prodSecond, prodThird,
      rgb_to_hsv_case_vtp _ _ _ hpt htv hpv]
    simp only [Prod.mk.injEq]
    refine ⟨?_, hs_comp, trivial⟩
    rw [e1, div_self hvsne]
    rw [show v - v * (1 - s * (1 - h * 6)) = (1 - h * 6) * (v * s) by ring]
    rw [mul_div_assoc, div_self hvsne, mul_one]
    rw [show (1 - (1 - h * 6)) / 6 = h by ring]
    exact pymod1_eq_self hh0 hh1
  · -- i = 1: (q, v, p)
    have hrgb : hsv_to_rgb h s v = (v * (1 - s * (h * 6 - 1)), v, v * (1 - s)) := by
      simp only [hsv_to_rgb]
      rw [if_neg hsne, htr, hk]
      norm_num
    have hpq : v * (1 - s) ≤ v * (1 - s * (h * 6 - 1)) := by nlinarith
    by_cases hq : v * (1 - s * (h * 6 - 1)) = v
    · have h61 : h * 6 = 1 := by
        have hcan : 1 - s * (h * 6 - 1) = 1 := mul_left_cancel₀ hvne (by rw [hq, mul_one])
        have hz : s * (h * 6 - 1) = 0 := by linarith
        rcases mul_eq_zero.mp hz with hs' | hh'
        · exact absurd hs' hsne
        · linarith
      rw [hrgb, prodFirst, prodSecond, prodThird, hq,
        rgb_to_hsv_case_vtp v v _ hpv.le (le_refl v) hpv]
      simp only [Prod.mk.injEq]
      refine ⟨?_, hs_comp, trivial⟩
      rw [e1, div_self hvsne, sub_self, zero_div]
      rw [show ((1:ℝ) - 0) / 6 = 1/6 by norm_num]
      rw [pymod1_eq_self (by norm_num) (by norm_num)]
      linarith
    · have hqv : v * (1 - s * (h * 6 - 1)) < v := lt_of_le_of_ne (by nlinarith) hq
      rw [hrgb, prodFirst, prodSecond, prodThird,
        rgb_to_hsv_case_qvp _ _ _ hpq hqv hpv]
      simp only [Prod.mk.injEq]
      refine ⟨?_, hs_comp, trivial⟩
      rw [e1, div_self hvsne]
      rw [show v - v * (1 - s * (h * 6 - 1)) = (h * 6 - 1) * (v * s) by ring]
      rw [mul_div_assoc, div_self hvsne, mul_one]
      rw [show (2 + (h * 6 - 1) - 1) / 6 = h by ring]
      exact pymod1_eq_self hh0 hh1
  · -- i = 2: (p, v, t)
    have hrgb : hsv_to_rgb h s v =
        (v * (1 - s), v, v * (1 - s * (1 - (h * 6 - 2)))) := by
      simp only [hsv_to_rgb]
      rw [if_neg hsne, htr, hk]
      norm_num
    have hpt : v * (1 - s) ≤ v * (1 - s * (1 - (h * 6 - 2))) := by nlinarith
    have htv : v * (1 - s * (1 - (h * 6 - 2))) ≤ v := by nlinarith
    rw [hrgb, prodFirst, prodSecond, prodThird,
      rgb_to_hsv_case_pvt _ _ _ hpt htv hpv]
    simp only [Prod.mk.injEq]
    refine ⟨?_, hs_comp, trivial⟩
    rw [e1, div_self hvsne]
    rw [show v - v * (1 - s * (1 - (h * 6 - 2))) = (1 - (h * 6 - 2)) * (v * s) by ring]
    rw [mul_div_assoc, div_self hvsne, mul_one]
    rw [show (2 + 1 - (1 - (h * 6 - 2))) / 6 = h by ring]
    exact pymod1_eq_self hh0 hh1
  · -- i = 3: (p, q, v)
    have hrgb : hsv_to_rgb h s v = (v * (1 - s), v * (1 - s * (h * 6 - 3)), v) := by
      simp only [hsv_to_rgb]
      rw [if_neg hsne, htr, hk]
      norm_num
    have hpq : v * (1 - s) ≤ v * (1 - s * (h * 6 - 3)) := by nlinarith
    by_cases hq : v * (1 - s * (h * 6 - 3)) = v
    · have h63 : h * 6 = 3 := by
        have hcan : 1 - s * (h * 6 - 3) = 1 := mul_left_cancel₀ hvne (by rw [hq, mul_one])
        have hz : s * (h * 6 - 3) = 0 := by linarith
        rcases mul_eq_zero.mp hz with hs' | hh'
        · exact absurd hs' hsne
        · linarith
      rw [hrgb, prodFirst, prodSecond, prodThird, hq,
        rgb_to_hsv_case_pvv _ _ hpv]
      simp only [Prod.mk.injEq]
      refine ⟨?_, hs_comp, trivial⟩
      rw [e1, div_self hvsne, sub_self, zero_div]
      rw [show (2 + 1 - (0:ℝ)) / 6 = 1/2 by norm_num]
      rw [pymod1_eq_self (by norm_num) (by norm_num)]
      linarith
    · have hqv : v * (1 - s * (h * 6 - 3)) < v := lt_of_le_of_ne (by nlinarith) hq
      rw [hrgb, prodFirst, prodSecond, prodThird,
        rgb_to_hsv_case_pqv _ _ _ hpq hqv hpv]
      simp only [Prod.mk.injEq]
      refine ⟨?_, hs_comp, trivial⟩
      rw [e1, div_self hvsne]
      rw [show v - v * (1 - s * (h * 6 - 3)) = (h * 6 - 3) * (v * s) by ring]
      rw [mul_div_assoc, div_self hvsne, mul_one]
      rw [show (4 + (h * 6 - 3) - 1) / 6 = h by ring]
      exact pymod1_eq_self hh0 hh1
  · -- i = 4: (t, p, v)
    have hrgb : hsv_to_rgb h s v =
        (v * (1 - s * (1 - (h * 6 - 4))), v * (1 - s), v) := by
      simp only [hsv_to_rgb]
      rw [if_neg hsne, htr, hk]
      norm_num
    have hpt : v * (1 - s) ≤ v * (1 - s * (1 - (h * 6 - 4))) := by nlinarith
    have htv : v * (1 - s * (1 - (h * 6 - 4))) < v := by nlinarith
    rw [hrgb, prodFirst, prodSecond, prodThird,
      rgb_to_hsv_case_tpv _ _ _ hpt htv hpv]
    simp only [Prod.mk.injEq]
    refine ⟨?_, hs_comp, trivial⟩
    rw [e1, div_self hvsne]
    rw [show v - v * (1 - s * (1 - (h * 6 - 4))) = (1 - (h * 6 - 4)) * (v * s) by ring]
    rw [mul_div_assoc, div_self hvsne, mul_one]
    rw [show (4 + 1 - (1 - (h * 6 - 4))) / 6 = h by ring]
    exact pymod1_eq_self hh0 hh1
  · -- i = 5: (v, p, q)
    have hrgb : hsv_to_rgb h s v = (v, v * (1 - s), v * (1 - s * (h * 6 - 5))) := by
      simp only [hsv_to_rgb]
      rw [if_neg hsne, htr, hk]
      norm_num
    have hpq : v * (1 - s) ≤ v * (1 - s * (h * 6 - 5)) := by nlinarith
    have hqv : v * (1 - s * (h * 6 - 5)) ≤ v := by nlinarith
    rw [hrgb, prodFirst, prodSecond, prodThird,
      rgb_to_hsv_case_vpq _ _ _ hpq hqv hpv]
    simp only [Prod.mk.injEq]
    refine ⟨?_, hs_comp, trivial⟩
    rw [e1, div_self hvsne]
    rw [show v - v * (1 - s * (h * 6 - 5)) = (h * 6 - 5) * (v * s) by ring]
    rw [mul_div_assoc, div_self hvsne, mul_one]
    rw [pymod1_eq_add_one (by linarith) (by linarith)]
    linarith

theorem mkColorTup_ok_eq {r g b a : ℝ} {c : Color}
    (h : mkColorTup r g b a = .ok c) : c = ⟨r, g, b, a⟩ := by
  rw [mkColorTup] at h
  by_cases hc : (0 ≤ r ∧ r ≤ 1) ∧ (0 ≤ g ∧ g ≤ 1) ∧ (0 ≤ b ∧ b ≤ 1) ∧ (0 ≤ a ∧ a ≤ 1)
  · rw [if_pos hc] at h
    injection h with h'
    exact h'.symm
  · rw [if_neg hc] at h
    exact absurd h (by simp)

theorem rgb_to_hsv_v_eq (r g b : ℝ) : (rgb_to_hsv r g b).2.2 = max r (max g b) := by
  simp only [rgb_to_hsv]
  split
  · rfl
  · rfl

theorem hsv_to_rgb_max {h s v : ℝ} (hh : 0 ≤ h) (hs0 : 0 ≤ s) (hs1 : s ≤ 1)
    (hv0 : 0 ≤ v) :
    max (hsv_to_rgb h s v).1 (max (hsv_to_rgb h s v).2.1 (hsv_to_rgb h s v).2.2)
      = v := by
  simp only [hsv_to_rgb]
  have htr : pytrunc (h * 6) = ⌊h * 6⌋ := pytrunc_of_nonneg (by positivity)
  have hf0 : 0 ≤ h * 6 - (pytrunc (h * 6) : ℝ) := by
    rw [htr]
    have := Int.floor_le (h * 6)
    linarith
  have hf1 : h * 6 - (pytrunc (h * 6) : ℝ) ≤ 1 := by
    rw [htr]
    have := Int.lt_floor_add_one (h * 6)
    linarith
  have hple : v * (1 - s) ≤ v := by nlinarith
  have hqle : v * (1 - s * (h * 6 - (pytrunc (h * 6) : ℝ))) ≤ v := by nlinarith
  have htle : v * (1 - s * (1 - (h * 6 - (pytrunc (h * 6) : ℝ)))) ≤ v := by nlinarith
  split
  · rw [max_self, max_self]
  · split
    · exact max_eq_left (max_le htle hple)
    · split
      · rw [max_eq_left hple]
        exact max_eq_right hqle
      · split
        · rw [max_eq_left htle]
          exact max_eq_right hple
        · split
          · rw [max_eq_right hqle]
            exact max_eq_right hple
          · split
            · rw [max_eq_right hple]
              exact max_eq_right htle
            · exact max_eq_left (max_le hple hqle)

theorem rgb_to_hsv_hue_zero_of_s_zero {r g b : ℝ} (hr : 0 ≤ r) (hg : 0 ≤ g)
    (hb : 0 ≤ b) (hs : (rgb_to_hsv r g b).2.1 = 0) : (rgb_to_hsv r g b).1 = 0 := by
  by_cases hgray : min r (min g b) = max r (max g b)
  · simp only [rgb_to_hsv]
    rw [if_pos hgray]
  · exfalso
    simp only [rgb_to_hsv] at hs
    rw [if_neg hgray, prodSecond] at hs
    have hmin : 0 ≤ min r (min g b) := le_min hr (le_min hg hb)
    have hlt : min r (min g b) < max r (max g b) :=
      lt_of_le_of_ne (le_trans (min_le_left _ _) (le_max_left _ _)) hgray
    rcases div_eq_zero_iff.mp hs with h0 | h0
    · linarith
    · linarith

theorem rgb_to_hsv_v_pos_of_s_pos {r g b : ℝ} (hr : 0 ≤ r) (hg : 0 ≤ g)
    (hb : 0 ≤ b) (hs : 0 < (rgb_to_hsv r g b).2.1) : 0 < (rgb_to_hsv r g b).2.2 := by
  rw [rgb_to_hsv_v_eq]
  by_cases hgray : min r (min g b) = max r (max g b)
  · exfalso
    simp only [rgb_to_hsv] at hs
    rw [if_pos hgray, prodSecond] at hs
    exact lt_irrefl 0 hs
  · have hmin : 0 ≤ min r (min g b) := le_min hr (le_min hg hb)
    have hlt : min r (min g b) < max r (max g b) :=
      lt_of_le_of_ne (le_trans (min_le_left _ _) (le_max_left _ _)) hgray
    linarith

/-- C9 (amended): for a valid colour, `adjust_saturation` and
`adjust_brightness` always preserve alpha exactly; `adjust_saturation`
always preserves value, and preserves hue exactly whenever the scaled
saturation stays positive; `adjust_brightness` preserves hue and saturation
exactly whenever the scaled value stays positive (when the adjusted channel
is driven to zero the result is gray/black, whose hue and saturation
collapse to 0). -/
theorem adjust_preserves_channels (c : Color) (factor : ℝ) (hc : c.Valid) :
    (∀ c', c.adjust_saturation factor = .ok c' →
      c'.a = c.a ∧
      (Color.hsv c').2.2 = (Color.hsv c).2.2 ∧
      (0 < (Color.hsv c).2.1 * factor → (Color.hsv c').1 = (Color.hsv c).1)) ∧
    (∀ c', c.adjust_brightness factor = .ok c' →
      c'.a = c.a ∧
      (0 < (Color.hsv c).2.2 * factor →
        (Color.hsv c').1 = (Color.hsv c).1 ∧
        (Color.hsv c').2.1 = (Color.hsv c).2.1)) := by
  obtain ⟨hr, hg, hb, ha⟩ := hc
  have hraw0 : 0 ≤ (rgb_to_hsv c.r c.g c.b).1 := rgb_to_hsv_h_nonneg _ _ _
  have hraw1 : (rgb_to_hsv c.r c.g c.b).1 < 1 := rgb_to_hsv_h_lt_one _ _ _
  have hsmem := rgb_to_hsv_s_mem hr.1 hg.1 hb.1
  have hvmem := rgb_to_hsv_v_mem hr hg hb
  have hdiv : (Color.hsv c).1 / 360 = (rgb_to_hsv c.r c.g c.b).1 := by
    rw [Color_hsv_1]
    field_simp
  constructor
  · intro c' h
    simp only [Color.adjust_saturation] at h
    rw [hdiv, Color_hsv_s, Color_hsv_v] at h
    have hceq := mkColorTup_ok_eq h
    have hcl := clamp01_mem ((rgb_to_hsv c.r c.g c.b).2.1 * factor)
    refine ⟨by rw [hceq], ?_, ?_⟩
    · rw [Color_hsv_v c', Color_hsv_v c]
      simp only [hceq]
      rw [rgb_to_hsv_v_eq]
      exact hsv_to_rgb_max hraw0 hcl.1 hcl.2 hvmem.1
    · intro hpos
      rw [Color_hsv_s] at hpos
      have hSpos : 0 < (rgb_to_hsv c.r c.g c.b).2.1 := by
        rcases lt_or_eq_of_le hsmem.1 with h' | h'
        · exact h'
        · rw [← h'] at hpos
          simp at hpos
      have hclpos : 0 < min 1 (max 0 ((rgb_to_hsv c.r c.g c.b).2.1 * factor)) := by
        rw [max_eq_right hpos.le]
        exact lt_min one_pos hpos
      have hVpos : 0 < (rgb_to_hsv c.r c.g c.b).2.2 :=
        rgb_to_hsv_v_pos_of_s_pos hr.1 hg.1 hb.1 hSpos
      have hrt := hsv_round_trip hraw0 hraw1 hclpos (min_le_left _ _) hVpos
      rw [Color_hsv_1 c', Color_hsv_1 c]
      simp only [hceq]
      rw [congrArg Prod.fst hrt]
  · intro c' h
    simp only [Color.adjust_brightness] at h
    rw [hdiv, Color_hsv_s, Color_hsv_v] at h
    have hceq := mkColorTup_ok_eq h
    refine ⟨by rw [hceq], ?_⟩
    intro hpos
    rw [Color_hsv_v] at hpos
    have hclpos : 0 < min 1 (max 0 ((rgb_to_hsv c.r c.g c.b).2.2 * factor)) := by
      rw [max_eq_right hpos.le]
      exact lt_min one_pos hpos
    by_cases hS0 : (rgb_to_hsv c.r c.g c.b).2.1 = 0
    · have hgray : hsv_to_rgb ((rgb_to_hsv c.r c.g c.b).1)
          ((rgb_to_hsv c.r c.g c.b).2.1)
          (min 1 (max 0 ((rgb_to_hsv c.r c.g c.b).2.2 * factor))) =
          (min 1 (max 0 ((rgb_to_hsv c.r c.g c.b).2.2 * factor)),
            min 1 (max 0 ((rgb_to_hsv c.r c.g c.b).2.2 * factor)),
            min 1 (max 0 ((rgb_to_hsv c.r c.g c.b).2.2 * factor))) := by
        rw [hS0]
        exact hsv_to_rgb_s0 _ _
      have hhue0 : (rgb_to_hsv c.r c.g c.b).1 = 0 :=
        rgb_to_hsv_hue_zero_of_s_zero hr.1 hg.1 hb.1 hS0
      constructor
      · rw [Color_hsv_1 c', Color_hsv_1 c]
        simp only [hceq, hgray]
        rw [rgb_to_hsv_gray, prodFirst, hhue0]
      · rw [Color_hsv_s c', Color_hsv_s c]
        simp only [hceq, hgray]
        rw [rgb_to_hsv_gray, prodSecond]
        exact hS0.symm
    · have hSpos : 0 < (rgb_to_hsv c.r c.g c.b).2.1 :=
        lt_of_le_of_ne hsmem.1 (Ne.symm hS0)
      have hrt := hsv_round_trip hraw0 hraw1 hSpos hsmem.2 hclpos
      constructor
      · rw [Color_hsv_1 c', Color_hsv_1 c]
        simp only [hceq]
        rw [congrArg Prod.fst hrt]
      · rw [Color_hsv_s c', Color_hsv_s c]
        simp only [hceq]
        have hs2 := congrArg (fun x : ℝ × ℝ × ℝ => x.2.1) hrt
        simp only at hs2
        exact hs2

/-- Pure blue. -/
def blue0 : Color := ⟨0, 0, 1, 1⟩

theorem blue0_valid : blue0.Valid := by
  unfold blue0 Color.Valid
  norm_num

theorem rgb_to_hsv_blue : rgb_to_hsv 0 0 1 = (2/3, 1, 1) := by
  have h1 : pymod1 (2/3 : ℝ) = 2/3 := pymod1_eq_self (by norm_num) (by norm_num)
  rw [rgb_to_hsv_case_pqv 0 0 1 (le_refl 0) one_pos one_pos]
  norm_num [h1]

theorem hsv_blue : Color.hsv blue0 = (240, 1, 1) := by
  simp only [Color.hsv, show blue0.r = 0 from rfl, show blue0.g = 0 from rfl,
    show blue0.b = 1 from rfl, rgb_to_hsv_blue]
  norm_num

theorem adjust_saturation_blue_zero : blue0.adjust_saturation 0 = .ok white0 := by
  simp only [Color.adjust_saturation, hsv_blue, prodFirst, prodSecond, prodThird]
  rw [show min 1 (max 0 ((1:ℝ) * 0)) = 0 by norm_num]
  rw [hsv_to_rgb_s0]
  rw [show blue0.a = 1 from rfl]
  exact mkColorTup_valid_ok white0_valid

/-- C9 counterexample: `adjust_saturation` with factor 0 maps pure blue
(hue 240) to white (hue 0): hue is not preserved for every factor. -/
theorem adjust_saturation_hue_cex :
    blue0.adjust_saturation 0 = .ok white0 ∧
      (Color.hsv blue0).1 = 240 ∧ (Color.hsv white0).1 = 0 := by
  refine ⟨adjust_saturation_blue_zero, ?_, ?_⟩
  · rw [hsv_blue]
  · simp only [Color.hsv, show white0.r = 1 from rfl, show white0.g = 1 from rfl,
      show white0.b = 1 from rfl, rgb_to_hsv_gray]
    norm_num

/-- Witness for C9 (amended) at pure blue with factor 2. -/
theorem adjust_preserves_channels_witness :
    blue0.Valid ∧
      (∀ c', blue0.adjust_saturation 2 = .ok c' →
        c'.a = blue0.a ∧
        (Color.hsv c').2.2 = (Color.hsv blue0).2.2 ∧
        (0 < (Color.hsv blue0).2.1 * 2 → (Color.hsv c').1 = (Color.hsv blue0).1)) :=
  ⟨blue0_valid, (adjust_preserves_channels blue0 2 blue0_valid).1⟩

theorem finalSelect_eq {base target : Color} {bf : ℝ} {lc bc : Color}
    (hl : base.adjust_lightness bf = .ok lc)
    (hb : base.adjust_brightness bf = .ok bc) :
    finalSelect base target bf =
      .ok (if lc.contrast_ratio target > bc.contrast_ratio target
           then lc else bc) := by
  rw [finalSelect, hl, hb]

/-- C10: in both optimization methods, when the lightness- and
brightness-adjusted candidates at the winning factor have exactly equal
contrast against the target, the final strict comparison fails and the
brightness-adjusted candidate is returned. -/
theorem optimization_tie_brightness (base target : Color) (level method : String)
    (fuel : ℕ) (lc bc : Color)
    (hm : method = "golden_section" ∨ method = "gradient_descent")
    (hlc : base.adjust_lightness (optBestFactor base target method fuel) = .ok lc)
    (hbc : base.adjust_brightness (optBestFactor base target method fuel) = .ok bc)
    (htie : lc.contrast_ratio target = bc.contrast_ratio target) :
    find_maximal_contrast_optimization base target level method fuel = .ok bc := by
  have hfs : finalSelect base target (optBestFactor base target method fuel) = .ok bc := by
    rw [finalSelect_eq hlc hbc]
    rw [if_neg (by rw [htie]; exact lt_irrefl _)]
  rcases hm with h | h
  · rw [optBestFactor, if_pos h] at hfs
    rw [find_maximal_contrast_optimization, if_pos h]
    exact hfs
  · by_cases hgs : method = "golden_section"
    · rw [optBestFactor, if_pos hgs] at hfs
      rw [find_maximal_contrast_optimization, if_pos hgs]
      exact hfs
    · rw [optBestFactor, if_neg hgs] at hfs
      rw [find_maximal_contrast_optimization, if_neg hgs, if_pos h]
      exact hfs

theorem white_adjust_both (f : ℝ) :
    ∃ w, white0.adjust_lightness f = .ok w ∧ white0.adjust_brightness f = .ok w := by
  rw [show white0 = Color.mk 1 1 1 1 from rfl, adjust_lightness_gray,
    adjust_brightness_gray]
  have hcl := clamp01_mem ((1:ℝ) * f)
  refine ⟨⟨min 1 (max 0 (1 * f)), min 1 (max 0 (1 * f)), min 1 (max 0 (1 * f)), 1⟩,
    mkColorTup_valid_ok ⟨⟨hcl.1, hcl.2⟩, ⟨hcl.1, hcl.2⟩, ⟨hcl.1, hcl.2⟩, by norm_num⟩,
    mkColorTup_valid_ok ⟨⟨hcl.1, hcl.2⟩, ⟨hcl.1, hcl.2⟩, ⟨hcl.1, hcl.2⟩, by norm_num⟩⟩

/-- Witness for C10: for a white base both candidates coincide, so their
contrasts tie and the brightness candidate is returned. -/
theorem optimization_tie_brightness_witness :
    ∃ w, white0.adjust_lightness
        (optBestFactor white0 black0 "golden_section" 100) = .ok w ∧
      white0.adjust_brightness
        (optBestFactor white0 black0 "golden_section" 100) = .ok w ∧
      find_maximal_contrast_optimization white0 black0 "AA" "golden_section" 100 =
        .ok w := by
  obtain ⟨w, hl, hb⟩ :=
    white_adjust_both (optBestFactor white0 black0 "golden_section" 100)
  exact ⟨w, hl, hb,
    optimization_tie_brightness white0 black0 "AA" "golden_section" 100 w w
      (Or.inl rfl) hl hb rfl⟩

theorem linearize_lt_one {x : ℝ} (h1 : x < 1) : linearize x < 1 := by
  rw [linearize]
  by_cases hx : x ≤ 0.03928
  · rw [if_pos hx]
    rw [div_lt_one (by norm_num)]
    linarith
  · rw [if_neg hx]
    push_neg at hx
    refine Real.rpow_lt_one (div_nonneg (by linarith) (by norm_num)) ?_ (by norm_num)
    rw [div_lt_one (by norm_num)]
    linarith

/-- The concrete base colour of the golden-section regression example:
a dark blue `(0, 0, 5/6)`. -/
def darkBlue : Color := ⟨0, 0, 5/6, 1⟩

theorem rgb_to_hls_darkBlue : rgb_to_hls 0 0 (5/6 : ℝ) = (2/3, 5/12, 1) := by
  have hmax : max (0:ℝ) (max 0 (5/6)) = 5/6 := by
    rw [max_eq_right (by norm_num : (0:ℝ) ≤ 5/6)]
    exact max_eq_right (by norm_num)
  have hmin : min (0:ℝ) (min 0 (5/6)) = 0 := by
    rw [min_eq_left (by norm_num : (0:ℝ) ≤ 5/6)]
    exact min_self 0
  have hp : pymod1 ((2:ℝ)/3) = 2/3 := pymod1_eq_self (by norm_num) (by norm_num)
  simp only [rgb_to_hls, hmax, hmin]
  norm_num [hp]

theorem hsl_darkBlue : Color.hsl darkBlue = (240, 1, 5/12) := by
  simp only [Color.hsl, show darkBlue.r = 0 from rfl, show darkBlue.g = 0 from rfl,
    show darkBlue.b = (5/6 : ℝ) from rfl, rgb_to_hls_darkBlue]
  norm_num

theorem hsv_darkBlue : Color.hsv darkBlue = (240, 1, 5/6) := by
  have h : rgb_to_hsv 0 0 (5/6 : ℝ) = (2/3, 1, 5/6) := by
    have hp : pymod1 ((2:ℝ)/3) = 2/3 := pymod1_eq_self (by norm_num) (by norm_num)
    rw [rgb_to_hsv_case_pqv 0 0 (5/6) (le_refl 0) (by norm_num) (by norm_num)]
    norm_num [hp]
  simp only [Color.hsv, show darkBlue.r = 0 from rfl, show darkBlue.g = 0 from rfl,
    show darkBlue.b = (5/6 : ℝ) from rfl, h]
  norm_num

theorem hls_to_rgb_hue23 {l : ℝ} (hl : 1/2 < l) :
    hls_to_rgb (2/3) l 1 = (2 * l - 1, 2 * l - 1, 1) := by
  simp only [hls_to_rgb]
  rw [if_neg (by norm_num : (1:ℝ) ≠ 0)]
  rw [if_neg (by linarith : ¬ l ≤ 1/2)]
  rw [show l + 1 - l * 1 = 1 by ring]
  have hv1 : hls_v (2 * l - 1) 1 (2/3 + 1/3) = 2 * l - 1 := by
    simp only [hls_v]
    rw [show (2:ℝ)/3 + 1/3 = 1 by norm_num]
    rw [show pymod1 (1:ℝ) = 0 by rw [pymod1, Int.floor_one]; norm_num]
    rw [if_pos (by norm_num)]
    ring
  have hv2 : hls_v (2 * l - 1) 1 (2/3) = 2 * l - 1 := by
    simp only [hls_v]
    rw [pymod1_eq_self (by norm_num) (by norm_num)]
    rw [if_neg (by norm_num), if_neg (by norm_num), if_neg (by norm_num)]
  have hv3 : hls_v (2 * l - 1) 1 (2/3 - 1/3) = 1 := by
    simp only [hls_v]
    rw [show (2:ℝ)/3 - 1/3 = 1/3 by norm_num]
    rw [pymod1_eq_self (by norm_num) (by norm_num)]
    rw [if_neg (by norm_num), if_pos (by norm_num)]
  rw [hv1, hv2, hv3]

theorem adjust_lightness_darkBlue {f : ℝ} (h1 : 6/5 < f) (h2 : f < 12/5) :
    darkBlue.adjust_lightness f =
      .ok ⟨2 * (5/12 * f) - 1, 2 * (5/12 * f) - 1, 1, 1⟩ := by
  simp only [Color.adjust_lightness, hsl_darkBlue, prodFirst, prodSecond, prodThird]
  rw [show min 1 (max 0 ((5:ℝ)/12 * f)) = 5/12 * f by
    rw [max_eq_right (by linarith)]
    exact min_eq_right (by linarith)]
  rw [show (240:ℝ)/360 = 2/3 by norm_num]
  rw [hls_to_rgb_hue23 (by linarith)]
  rw [show darkBlue.a = 1 from rfl]
  exact mkColorTup_valid_ok
    ⟨⟨by linarith, by linarith⟩, ⟨by linarith, by linarith⟩,
      ⟨by norm_num, by norm_num⟩, by norm_num, by norm_num⟩

theorem adjust_lightness_darkBlue_white {f : ℝ} (h1 : 12/5 ≤ f) :
    darkBlue.adjust_lightness f = .ok white0 := by
  simp only [Color.adjust_lightness, hsl_darkBlue, prodFirst, prodSecond, prodThird]
  rw [show min 1 (max 0 ((5:ℝ)/12 * f)) = 1 by
    rw [max_eq_right (by linarith)]
    exact min_eq_left (by linarith)]
  rw [show (240:ℝ)/360 = 2/3 by norm_num]
  rw [hls_to_rgb_hue23 (by norm_num)]
  rw [show darkBlue.a = 1 from rfl]
  rw [show 2 * (1:ℝ) - 1 = 1 by norm_num]
  exact mkColorTup_valid_ok white0_valid

theorem hsv_to_rgb_blue : hsv_to_rgb ((2:ℝ)/3) 1 1 = (0, 0, 1) := by
  simp only [hsv_to_rgb]
  rw [if_neg (by norm_num : (1:ℝ) ≠ 0)]
  rw [show (2:ℝ)/3 * 6 = 4 by norm_num]
  rw [show pytrunc (4:ℝ) = 4 by
    rw [pytrunc_of_nonneg (by norm_num)]
    exact_mod_cast Int.floor_intCast 4]
  norm_num

theorem adjust_brightness_darkBlue {f : ℝ} (h1 : 6/5 ≤ f) :
    darkBlue.adjust_brightness f = .ok blue0 := by
  simp only [Color.adjust_brightness, hsv_darkBlue, prodFirst, prodSecond, prodThird]
  rw [show min 1 (max 0 ((5:ℝ)/6 * f)) = 1 by
    rw [max_eq_right (by linarith)]
    exact min_eq_left (by linarith)]
  rw [show (240:ℝ)/360 = 2/3 by norm_num]
  rw [hsv_to_rgb_blue]
  rw [show darkBlue.a = 1 from rfl]
  exact mkColorTup_valid_ok blue0_valid

theorem luminance_blue : blue0.luminance = 0.0722 := by
  show 0.2126 * linearize 0 + 0.7152 * linearize 0 + 0.0722 * linearize 1 = 0.0722
  rw [linearize_zero, linearize_one]
  ring

theorem contrast_blue_white : blue0.contrast_ratio white0 = 1.05 / 0.1222 := by
  rw [Color.contrast_ratio, luminance_blue,
    show white0.luminance = 1 from luminance_ones 1]
  rw [if_pos (by norm_num)]
  norm_num

theorem contrast_white_white : white0.contrast_ratio white0 = 1 := by
  rw [Color.contrast_ratio, show white0.luminance = 1 from luminance_ones 1]
  rw [if_neg (lt_irrefl 1)]
  norm_num

theorem luminance_lightblue (m : ℝ) :
    (Color.mk m m 1 1).luminance = 0.9278 * linearize m + 0.0722 := by
  show 0.2126 * linearize m + 0.7152 * linearize m + 0.0722 * linearize 1 = _
  rw [linearize_one]
  ring

theorem contrast_lightblue_le {m : ℝ} (h0 : 0 ≤ m) (h1 : m < 1) :
    (Color.mk m m 1 1).contrast_ratio white0 ≤ blue0.contrast_ratio white0 := by
  have hlin0 := linearize_nonneg h0
  have hlin1 := linearize_lt_one h1
  rw [Color.contrast_ratio, luminance_lightblue,
    show white0.luminance = 1 from luminance_ones 1]
  rw [if_pos (by nlinarith)]
  rw [contrast_blue_white]
  rw [div_le_div_iff (by nlinarith) (by norm_num)]
  nlinarith

theorem objective_darkBlue {f : ℝ} (h1 : 6/5 < f) (h2 : f ≤ 3) :
    objective_function darkBlue white0 f = blue0.contrast_ratio white0 := by
  rw [objective_function]
  by_cases hf : f < 12/5
  · rw [adjust_lightness_darkBlue h1 hf, adjust_brightness_darkBlue h1.le]
    exact max_eq_right (contrast_lightblue_le (by linarith) (by linarith))
  · push_neg at hf
    rw [adjust_lightness_darkBlue_white hf, adjust_brightness_darkBlue h1.le]
    refine max_eq_right ?_
    rw [contrast_white_white, contrast_blue_white]
    norm_num

theorem resphi_eq : resphi = (3 - Real.sqrt 5) / 2 := by
  rw [resphi, goldenPhi]
  ring

theorem sqrt5_sq : Real.sqrt 5 ^ 2 = 5 := Real.sq_sqrt (by norm_num)

theorem sqrt5_lt : Real.sqrt 5 < 2.24 := by
  nlinarith [sqrt5_sq, Real.sqrt_nonneg 5]

theorem sqrt5_gt : 2.23 < Real.sqrt 5 := by
  nlinarith [sqrt5_sq, Real.sqrt_nonneg 5]

theorem resphi_gt : 0.38 < resphi := by
  rw [resphi_eq]
  linarith [sqrt5_lt]

theorem resphi_lt : resphi < 0.385 := by
  rw [resphi_eq]
  linarith [sqrt5_gt]

theorem resphi_golden : resphi * (2 - resphi) = 1 - resphi := by
  rw [resphi_eq]
  linear_combination (-1/4 : ℝ) * sqrt5_sq

/-- When the objective is constant on `(6/5, 3]` and the probes start inside
that region in golden-section position, every iteration compares equal
values, takes the else branch, keeps the tracked best unchanged, and stays
inside the region; hence the loop returns its incoming `best_factor`. -/
theorem goldenLoop_const (obj : ℝ → ℝ) (P : ℝ)
    (hobj : ∀ x, 6/5 < x → x ≤ 3 → obj x = P) (n : ℕ) :
    ∀ (a b x1 x2 bf : ℝ),
      6/5 < x1 → x1 = a + resphi * (b - a) → x2 = a + (1 - resphi) * (b - a) →
      a ≤ b → b ≤ 3 →
      goldenLoop obj 1e-5 n a b x1 x2 P P bf P = bf := by
  induction n with
  | zero =>
      intro a b x1 x2 bf hx1 he1 he2 hab hb3
      rw [goldenLoop]
  | succ n IH =>
      intro a b x1 x2 bf hx1 he1 he2 hab hb3
      have hr1 := resphi_gt
      have hr2 := resphi_lt
      have hx1b : x1 ≤ b := by
        rw [he1]
        nlinarith
      have hx12 : x1 ≤ x2 := by
        rw [he1, he2]
        nlinarith
      have hx2b : x2 ≤ b := by
        rw [he2]
        nlinarith
      have hnew1 : 6/5 < x1 + (1 - resphi) * (b - x1) := by
        nlinarith
      have hnew3 : x1 + (1 - resphi) * (b - x1) ≤ 3 := by
        nlinarith
      have hPP : ¬ (P > P) := lt_irrefl P
      rw [goldenLoop]
      by_cases hw : |b - a| > 1e-5
      · rw [if_pos hw, if_neg hPP]
        rw [hobj (x1 + (1 - resphi) * (b - x1)) hnew1 hnew3]
        rw [max_self, if_neg hPP, if_neg hPP]
        apply IH x1 b x2 (x1 + (1 - resphi) * (b - x1)) bf
          (lt_of_lt_of_le hx1 hx12) ?_ rfl hx1b hb3
        rw [he1, he2]
        linear_combination (a - b) * resphi_golden
      · rw [if_neg hw]

theorem goldenBestFactor_darkBlue (fuel : ℕ) :
    goldenBestFactor darkBlue white0 fuel = 0.1 + (1 - resphi) * (3.0 - 0.1) := by
  have hr1 := resphi_gt
  have hr2 := resphi_lt
  have hX1a : 6/5 < 0.1 + resphi * (3.0 - 0.1) := by linarith
  have hX1b : 0.1 + resphi * (3.0 - 0.1) ≤ 3 := by linarith
  have hX2a : 6/5 < 0.1 + (1 - resphi) * (3.0 - 0.1) := by linarith
  have hX2b : 0.1 + (1 - resphi) * (3.0 - 0.1) ≤ 3 := by linarith
  simp only [goldenBestFactor]
  rw [objective_darkBlue hX1a hX1b, objective_darkBlue hX2a hX2b]
  rw [if_neg (lt_irrefl _), max_self]
  exact goldenLoop_const (objective_function darkBlue white0) _
    (fun x hx1 hx2 => objective_darkBlue hx1 hx2) fuel 0.1 3.0 _ _ _
    hX1a rfl rfl (by norm_num) (by norm_num)

/-- C1 counterexample: on base `(0, 0, 5/6)` against white, the
golden-section method's objective is constant over every factor it samples,
the loop drifts right away from the base, and the returned colour (vivid
blue) has strictly *smaller* contrast against the target than the base:
`find_maximal_contrast_optimization` is not non-regressive. -/
theorem golden_section_regression :
    find_maximal_contrast_optimization darkBlue white0 "AA" "golden_section" 100 =
      .ok blue0 ∧
      blue0.contrast_ratio white0 < darkBlue.contrast_ratio white0 := by
  have hr1 := resphi_gt
  have hr2 := resphi_lt
  constructor
  · rw [find_maximal_contrast_optimization, if_pos rfl]
    rw [goldenBestFactor_darkBlue]
    have hfa : 6/5 < 0.1 + (1 - resphi) * (3.0 - 0.1) := by linarith
    have hfb : 0.1 + (1 - resphi) * (3.0 - 0.1) < 12/5 := by linarith
    rw [finalSelect_eq (adjust_lightness_darkBlue hfa hfb)
      (adjust_brightness_darkBlue hfa.le)]
    have hm0 : (0:ℝ) ≤ 2 * (5/12 * (0.1 + (1 - resphi) * (3.0 - 0.1))) - 1 := by
      linarith
    have hm1 : 2 * (5/12 * (0.1 + (1 - resphi) * (3.0 - 0.1))) - 1 < 1 := by
      linarith
    rw [if_neg (not_lt.mpr (contrast_lightblue_le hm0 hm1))]
  · rw [contrast_blue_white]
    have hlum : darkBlue.luminance = 0.0722 * linearize (5/6) := by
      show 0.2126 * linearize 0 + 0.7152 * linearize 0 +
        0.0722 * linearize (5/6) = _
      rw [linearize_zero]
      ring
    have hl1 : linearize (5/6 : ℝ) < 1 := linearize_lt_one (by norm_num)
    have hl0 : (0:ℝ) ≤ linearize (5/6) := linearize_nonneg (by norm_num)
    rw [Color.contrast_ratio, hlum, show white0.luminance = 1 from luminance_ones 1]
    rw [if_pos (by nlinarith)]
    rw [div_lt_div_iff (by norm_num) (by nlinarith)]
    nlinarith
